import Mathlib

/-!
Shallow embedding of the reconciliation core of `mini-reconciliation`
(`internal/usecase/reconciliation.go` together with the report shapes of
`internal/domain`), followed by theorems about it.

Modelling conventions:
* Go `time.Time` instants are integers counting nanoseconds since the epoch
  (UTC); Go `time.Duration` arithmetic becomes integer arithmetic.
* Go `float64` amounts are exact rationals; the `%.2f` quantization used by
  the grouping key becomes rounding to integer cents.
* A Go slice is `Option (List α)`: `none` is the nil slice (JSON `null`),
  `some l` a non-nil slice with elements `l`.
* A Go map is an association list whose keys are kept in first-insertion
  order; Go's randomized map iteration order is studied explicitly by
  re-running the two order-sensitive loops on permuted entry lists.
* The two `map[string]bool` claim sets become lists of claimed identifiers
  (membership is what the Go code observes).
-/

set_option linter.unusedVariables false

namespace MiniRecon

/-- Go `domain.TransactionType` is a string type (constants DEBIT/CREDIT). -/
abbrev TransactionType := String

def DEBIT : TransactionType := "DEBIT"

def CREDIT : TransactionType := "CREDIT"

/-- Nanoseconds in Go's `time.Hour`. -/
def nsPerHour : Int := 3600000000000

/-- Nanoseconds in 24 hours. -/
def nsPerDay : Int := 86400000000000

/-- Calendar day of an instant: models Go `t.Format("2006-01-02")`, which is
injective on calendar days (floor division handles pre-epoch instants). -/
def dayOf (t : Int) : Int := Int.fdiv t nsPerDay

/-- Model of `domain.SystemTransaction`. -/
structure SystemTransaction where
  trxID : String
  amount : ℚ
  type : TransactionType
  transactionTime : Int
deriving DecidableEq

/-- Model of `domain.BankTransaction` (including the ingestion-derived
`NormalizedAmount` and `Type` fields, fixed before `Reconcile` runs). -/
structure BankTransaction where
  uniqueIdentifier : String
  amount : ℚ
  date : Int
  description : String
  bankSource : String
  normalizedAmount : ℚ
  type : TransactionType
deriving DecidableEq

/-- A Go slice value: `none` is the nil slice, `some` a non-nil one. -/
abbrev GoSlice (α : Type) := Option (List α)

/-- Go `len` of a slice (`len(nil) = 0`). -/
def goLen {α : Type} : GoSlice α → Nat
  | none => 0
  | some l => l.length

/-- Go `append(s, x)`: always yields a non-nil slice. -/
def goPush {α : Type} (s : GoSlice α) (x : α) : GoSlice α :=
  some (s.getD [] ++ [x])

/-- Go `append(s, xs...)`: appending zero elements returns `s` unchanged, so
a nil slice stays nil; otherwise the result is non-nil. -/
def goAppend {α : Type} (s : GoSlice α) (xs : List α) : GoSlice α :=
  match xs with
  | [] => s
  | _ => some (s.getD [] ++ xs)

/-- Model of `domain.Summary`. Timeframe strings are modelled by the calendar day
they print. -/
structure Summary where
  timeframeStart : Int
  timeframeEnd : Int
  totalSystemTransactionsProcessed : Nat
  totalBankTransactionsProcessed : Nat
  matchedTransactions : Nat
deriving DecidableEq

/-- Model of `domain.DiscrepancyDetail`. -/
structure DiscrepancyDetail where
  systemTransaction : SystemTransaction
  bankTransaction : BankTransaction
deriving DecidableEq

/-- Model of `domain.DiscrepantTransactions`. -/
structure DiscrepantTransactions where
  count : Nat
  totalDiscrepancyValue : ℚ
  details : GoSlice DiscrepancyDetail
deriving DecidableEq

/-- Model of `domain.UnmatchedTransactions`. The by-source map is an association
list; `none` would be a nil map. -/
structure UnmatchedTransactions where
  count : Nat
  systemMissingFromBank : GoSlice SystemTransaction
  bankMissingFromSystem : Option (List (String × List BankTransaction))
deriving DecidableEq

/-- Model of `domain.ReconciliationReport`. -/
structure ReconciliationReport where
  reconciliationSummary : Summary
  discrepantTransactions : DiscrepantTransactions
  unmatchedTransactions : UnmatchedTransactions
deriving DecidableEq

/-- Model of `filterSystemTransactionsByDate`: keep `tx` when
`(txDate.Equal(start) || txDate.After(start)) &&
 (txDate.Equal(end) || txDate.Before(end.Add(24*time.Hour-time.Hour)))`. -/
def filterSystemTransactionsByDate (transactions : List SystemTransaction)
    (startT endT : Int) : List SystemTransaction :=
  transactions.filter fun tx =>
    decide ((tx.transactionTime = startT ∨ startT < tx.transactionTime) ∧
      (tx.transactionTime = endT ∨
        tx.transactionTime < endT + (24 * nsPerHour - nsPerHour)))

/-- Model of `filterBankTransactionsByDate`: keep `tx` when
`(txDate.Equal(start) || txDate.After(start)) &&
 (txDate.Equal(end) || txDate.Before(end.Add(24*time.Hour-time.Nanosecond)))`. -/
def filterBankTransactionsByDate (transactions : List BankTransaction)
    (startT endT : Int) : List BankTransaction :=
  transactions.filter fun tx =>
    decide ((tx.date = startT ∨ startT < tx.date) ∧
      (tx.date = endT ∨ tx.date < endT + (24 * nsPerHour - 1)))

/-- Substring occurrence on character lists (empty pattern always occurs). -/
def listContainsSub : List Char → List Char → Bool
  | [], pat => pat.isEmpty
  | c :: t, pat => pat.isPrefixOf (c :: t) || listContainsSub t pat

/-- Go `strings.Contains s pat`. -/
def goContains (s pat : String) : Bool :=
  listContainsSub s.toList pat.toList

/-- The amount component of the grouping key: Go prints the amount with
`%.2f`; we model the printed value by its integer number of cents,
rounding to nearest (round-half-up on exact rationals; Go rounds the
underlying binary float, for which exact half-cent ties do not arise for
typical decimal inputs). -/
def round2 (a : ℚ) : Int := ⌊100 * a + 1 / 2⌋

/-- The composite key `fmt.Sprintf("%s-%s-%.2f", day, type, amount)` of
`buildGroupKey`, modelled by its three components (the formatted string is
injective in them). -/
abbrev GroupKey := Int × TransactionType × Int

def buildGroupKey (t : Int) (txType : TransactionType) (amount : ℚ) : GroupKey :=
  (dayOf t, txType, round2 amount)

/-- Key used for a system transaction in Pass 2/3 grouping. -/
def systemKey (s : SystemTransaction) : GroupKey :=
  buildGroupKey s.transactionTime s.type s.amount

/-- Key used for a bank transaction in Pass 2/3 grouping (normalized
amount, not the raw signed amount). -/
def bankKey (b : BankTransaction) : GroupKey :=
  buildGroupKey b.date b.type b.normalizedAmount

/-- Association-list lookup (`v, ok := m[k]`). -/
def assocLookup {κ α : Type} [DecidableEq κ] : List (κ × α) → κ → Option α
  | [], _ => none
  | (k, v) :: m, k' => if k = k' then some v else assocLookup m k'

/-- Association-list deletion (`delete(m, k)`); keys are unique by
construction, so deleting the first occurrence models Go. -/
def assocErase {κ α : Type} [DecidableEq κ] : List (κ × α) → κ → List (κ × α)
  | [], _ => []
  | (k, v) :: m, k' => if k = k' then m else (k, v) :: assocErase m k'

/-- Go `m[k] = append(m[k], x)` on a map of slices: extend the bucket for
`k`, creating it (at the end, i.e. in first-insertion position) if absent. -/
def assocPush {κ α : Type} [DecidableEq κ] :
    List (κ × List α) → κ → α → List (κ × List α)
  | [], k', x => [(k', [x])]
  | (k, v) :: m, k', x =>
    if k = k' then (k, v ++ [x]) :: m else (k, v) :: assocPush m k' x

/-- Matching state threaded through `Reconcile`: the report under
construction, the two claim sets, and (as an observer, not part of the Go
report) the sequence of pairs passed to `processMatch`. -/
structure MatchState where
  report : ReconciliationReport
  matchedSystem : List String
  matchedBank : List String
  trace : List (SystemTransaction × BankTransaction)
deriving DecidableEq

/-- The float-comparison epsilon `0.001` of `processMatch`. -/
def epsilon : ℚ := 1 / 1000

/-- Model of `processMatch`: count the match; when the absolute difference between
the system amount and the bank normalized amount exceeds `0.001`, record a
discrepancy. -/
def processMatch (report : ReconciliationReport) (sysTx : SystemTransaction)
    (bankTx : BankTransaction) : ReconciliationReport :=
  let report := { report with
    reconciliationSummary.matchedTransactions :=
      report.reconciliationSummary.matchedTransactions + 1 }
  if epsilon < |sysTx.amount - bankTx.normalizedAmount| then
    { report with
      discrepantTransactions := {
        count := report.discrepantTransactions.count + 1
        totalDiscrepancyValue :=
          report.discrepantTransactions.totalDiscrepancyValue +
            |sysTx.amount - bankTx.normalizedAmount|
        details := goPush report.discrepantTransactions.details
          ⟨sysTx, bankTx⟩ } }
  else report

/-- Accept a pair: `uc.processMatch(&report, sysTx, bankTx)` followed by
marking both records claimed, as done at both call sites in `Reconcile`. -/
def applyMatch (st : MatchState) (sysTx : SystemTransaction)
    (bankTx : BankTransaction) : MatchState :=
  { report := processMatch st.report sysTx bankTx
    matchedSystem := st.matchedSystem ++ [sysTx.trxID]
    matchedBank := st.matchedBank ++ [bankTx.uniqueIdentifier]
    trace := st.trace ++ [(sysTx, bankTx)] }

/-- Inner loop of Pass 1: scan the system list for one bank record. -/
def pass1Inner (bankTx : BankTransaction) :
    List SystemTransaction → MatchState → MatchState
  | [], st => st
  | sysTx :: rest, st =>
    if sysTx.trxID ∈ st.matchedSystem ∨
        bankTx.uniqueIdentifier ∈ st.matchedBank then
      pass1Inner bankTx rest st
    else if goContains bankTx.description ("trxID:" ++ sysTx.trxID) then
      pass1Inner bankTx rest (applyMatch st sysTx bankTx)
    else
      pass1Inner bankTx rest st

/-- Pass 1: bank records outer, system records inner, both in original
order. -/
def pass1 : List BankTransaction → List SystemTransaction → MatchState →
    MatchState
  | [], _, st => st
  | bankTx :: rest, sysList, st =>
    pass1 rest sysList (pass1Inner bankTx sysList st)

/-- Shared shape of the two grouping loops: walk the filtered list and push
every unclaimed record into the bucket of its key. -/
def buildMap {κ α : Type} [DecidableEq κ] (key : α → κ) (claimed : α → Bool) :
    List α → List (κ × List α) → List (κ × List α)
  | [], m => m
  | x :: l, m =>
    buildMap key claimed l (if claimed x then m else assocPush m (key x) x)

/-- Build the system grouping map over records not claimed in Pass 1. -/
def buildSystemMap (l : List SystemTransaction) (matchedSystem : List String) :
    List (GroupKey × List SystemTransaction) :=
  buildMap systemKey (fun s => decide (s.trxID ∈ matchedSystem)) l []

/-- Build the bank grouping map over records not claimed in Pass 1. -/
def buildBankMap (l : List BankTransaction) (matchedBank : List String) :
    List (GroupKey × List BankTransaction) :=
  buildMap bankKey (fun b => decide (b.uniqueIdentifier ∈ matchedBank)) l []

/-- Match two equal-size groups pairwise by position
(`for i := 0; i < len(sysTxs); i++`). -/
def matchGroup (sysTxs : List SystemTransaction) (bankTxs : List BankTransaction)
    (st : MatchState) : MatchState :=
  (sysTxs.zip bankTxs).foldl (fun st p => applyMatch st p.1 p.2) st

/-- Pass 2/3 loop over the system grouping map: a key present in both maps
with equal group sizes is matched pairwise and deleted from both maps;
otherwise both groups are kept. Returns the residual system entries, the
residual bank map, and the updated state. The entry list is the iteration
order of Go's `range` over `systemMap`. -/
def pass23 : List (GroupKey × List SystemTransaction) →
    List (GroupKey × List BankTransaction) → MatchState →
    List (GroupKey × List SystemTransaction) ×
      List (GroupKey × List BankTransaction) × MatchState
  | [], bankMap, st => ([], bankMap, st)
  | (k, sysTxs) :: rest, bankMap, st =>
    match assocLookup bankMap k with
    | some bankTxs =>
      if sysTxs.length = bankTxs.length then
        pass23 rest (assocErase bankMap k) (matchGroup sysTxs bankTxs st)
      else
        let r := pass23 rest bankMap st
        ((k, sysTxs) :: r.1, r.2.1, r.2.2)
    | none =>
      let r := pass23 rest bankMap st
      ((k, sysTxs) :: r.1, r.2.1, r.2.2)

/-- Model of `countBankMapItems`. -/
def countBankMapItems (m : List (String × List BankTransaction)) : Nat :=
  (m.map fun e => e.2.length).sum

/-- Collation of unmatched system records: append every residual group to
`SystemMissingFromBank` (which starts as the nil slice). -/
def collateSystem (resSys : List (GroupKey × List SystemTransaction))
    (s : GoSlice SystemTransaction) : GoSlice SystemTransaction :=
  resSys.foldl (fun s e => goAppend s e.2) s

/-- Distribute one residual bank group into the by-source buckets. -/
def collateBankOne (m : List (String × List BankTransaction))
    (txs : List BankTransaction) : List (String × List BankTransaction) :=
  txs.foldl (fun m b => assocPush m b.bankSource b) m

/-- Collation of unmatched bank records into `BankMissingFromSystem`. -/
def collateBank (resBank : List (GroupKey × List BankTransaction))
    (m : List (String × List BankTransaction)) :
    List (String × List BankTransaction) :=
  resBank.foldl (fun m e => collateBankOne m e.2) m

/-- The report literal built at the top of `Reconcile` (struct fields not
listed in the Go literal take their zero values: in particular
`SystemMissingFromBank` starts as the nil slice, while `Details` and
`BankMissingFromSystem` are made as empty non-nil containers). -/
def initialReport (startT endT : Int) (nSys nBank : Nat) : ReconciliationReport :=
  { reconciliationSummary := {
      timeframeStart := dayOf startT
      timeframeEnd := dayOf endT
      totalSystemTransactionsProcessed := nSys
      totalBankTransactionsProcessed := nBank
      matchedTransactions := 0 }
    discrepantTransactions :=
      { count := 0, totalDiscrepancyValue := 0, details := some [] }
    unmatchedTransactions := {
      count := 0
      systemMissingFromBank := none
      bankMissingFromSystem := some [] } }

/-- Fresh matching state over a report. -/
def initState (r : ReconciliationReport) : MatchState := ⟨r, [], [], []⟩

/-- Step 4 of `Reconcile`: collate both residues into the report and set
the unmatched count afterwards. -/
def assemble (st : MatchState) (resSys : List (GroupKey × List SystemTransaction))
    (resBank : List (GroupKey × List BankTransaction)) : ReconciliationReport :=
  { st.report with unmatchedTransactions := {
      count := goLen (collateSystem resSys
          st.report.unmatchedTransactions.systemMissingFromBank) +
        countBankMapItems (collateBank resBank
          (st.report.unmatchedTransactions.bankMissingFromSystem.getD []))
      systemMissingFromBank := collateSystem resSys
        st.report.unmatchedTransactions.systemMissingFromBank
      bankMissingFromSystem := some (collateBank resBank
        (st.report.unmatchedTransactions.bankMissingFromSystem.getD [])) } }

/-- State after filtering and Pass 1. -/
def stageOne (systemTransactions : List SystemTransaction)
    (bankTransactions : List BankTransaction) (startT endT : Int) : MatchState :=
  pass1 (filterBankTransactionsByDate bankTransactions startT endT)
    (filterSystemTransactionsByDate systemTransactions startT endT)
    (initState (initialReport startT endT
      (filterSystemTransactionsByDate systemTransactions startT endT).length
      (filterBankTransactionsByDate bankTransactions startT endT).length))

/-- The system grouping map built after Pass 1. -/
def sysMapStage (systemTransactions : List SystemTransaction)
    (bankTransactions : List BankTransaction) (startT endT : Int) :
    List (GroupKey × List SystemTransaction) :=
  buildSystemMap (filterSystemTransactionsByDate systemTransactions startT endT)
    (stageOne systemTransactions bankTransactions startT endT).matchedSystem

/-- The bank grouping map built after Pass 1. -/
def bankMapStage (systemTransactions : List SystemTransaction)
    (bankTransactions : List BankTransaction) (startT endT : Int) :
    List (GroupKey × List BankTransaction) :=
  buildBankMap (filterBankTransactionsByDate bankTransactions startT endT)
    (stageOne systemTransactions bankTransactions startT endT).matchedBank

/-- Result of Pass 2/3 (residues and state). -/
def stageTwo (systemTransactions : List SystemTransaction)
    (bankTransactions : List BankTransaction) (startT endT : Int) :
    List (GroupKey × List SystemTransaction) ×
      List (GroupKey × List BankTransaction) × MatchState :=
  pass23 (sysMapStage systemTransactions bankTransactions startT endT)
    (bankMapStage systemTransactions bankTransactions startT endT)
    (stageOne systemTransactions bankTransactions startT endT)

/-- Model of `Reconcile` on already-ingested transaction lists. -/
def reconcile (systemTransactions : List SystemTransaction)
    (bankTransactions : List BankTransaction) (startT endT : Int) :
    ReconciliationReport :=
  assemble (stageTwo systemTransactions bankTransactions startT endT).2.2
    (stageTwo systemTransactions bankTransactions startT endT).1
    (stageTwo systemTransactions bankTransactions startT endT).2.1

/-- Model of `Reconcile` including step 1: the two ingestion results are given as
`Except` values (the repository either returns a list or an error). -/
def reconcileFromIngestion (sysRes : Except String (List SystemTransaction))
    (bankRes : Except String (List BankTransaction)) (startT endT : Int) :
    Except String ReconciliationReport :=
  match sysRes with
  | .error e => .error ("could not get system transactions: " ++ e)
  | .ok sysTxs =>
    match bankRes with
    | .error e => .error ("could not get bank transactions: " ++ e)
    | .ok bankTxs => .ok (reconcile sysTxs bankTxs startT endT)

/-- Model of `Reconcile` with Go's randomized map iteration orders made explicit:
`sysOrder` is the order in which the Pass-2/3 loop visits the system
grouping map, and `resSysOrder`/`resBankOrder` the orders in which the two
collation loops visit the residual maps. `reconcile` corresponds to taking
all three in first-insertion order. -/
def reconcileOrdered (systemTransactions : List SystemTransaction)
    (bankTransactions : List BankTransaction) (startT endT : Int)
    (sysOrder : List (GroupKey × List SystemTransaction))
    (resSysOrder : List (GroupKey × List SystemTransaction))
    (resBankOrder : List (GroupKey × List BankTransaction)) :
    ReconciliationReport :=
  assemble (pass23 sysOrder
      (bankMapStage systemTransactions bankTransactions startT endT)
      (stageOne systemTransactions bankTransactions startT endT)).2.2
    resSysOrder resBankOrder

/-- Go `strings.Contains(b.Description, "trxID:"+s.TrxID)`: the Pass-1 match
criterion. -/
def refersTo (b : BankTransaction) (s : SystemTransaction) : Bool :=
  goContains b.description ("trxID:" ++ s.trxID)

/-- Absolute difference compared by `processMatch`. -/
def pairDiff (p : SystemTransaction × BankTransaction) : ℚ :=
  |p.1.amount - p.2.normalizedAmount|

/-- Whether an accepted pair is recorded as a discrepancy. -/
def isDisc (p : SystemTransaction × BankTransaction) : Bool :=
  decide (epsilon < pairDiff p)

/-- Detail carried for a discrepant pair. -/
def mkDetail (p : SystemTransaction × BankTransaction) : DiscrepancyDetail :=
  ⟨p.1, p.2⟩

/-- System identifiers of a trace, in order. -/
def traceSys (ts : List (SystemTransaction × BankTransaction)) : List String :=
  ts.map fun p => p.1.trxID

/-- Bank identifiers of a trace, in order. -/
def traceBank (ts : List (SystemTransaction × BankTransaction)) : List String :=
  ts.map fun p => p.2.uniqueIdentifier

/-- How a report evolves under a sequence of `processMatch` calls. -/
def reportAfter (r : ReconciliationReport)
    (ts : List (SystemTransaction × BankTransaction)) : ReconciliationReport :=
  { r with
    reconciliationSummary.matchedTransactions :=
      r.reconciliationSummary.matchedTransactions + ts.length
    discrepantTransactions := {
      count := r.discrepantTransactions.count + (ts.filter isDisc).length
      totalDiscrepancyValue := r.discrepantTransactions.totalDiscrepancyValue +
        ((ts.filter isDisc).map pairDiff).sum
      details := goAppend r.discrepantTransactions.details
        ((ts.filter isDisc).map mkDetail) } }

/-- One state extends another by a block of accepted pairs: the trace grows
by `ts`, both claim lists grow by the ids of `ts`, and the report evolves
by the corresponding `processMatch` calls. -/
def Extends (st st' : MatchState) : Prop :=
  ∃ ts, st'.trace = st.trace ++ ts ∧
    st'.matchedSystem = st.matchedSystem ++ traceSys ts ∧
    st'.matchedBank = st.matchedBank ++ traceBank ts ∧
    st'.report = reportAfter st.report ts

/-- All records held in a grouping map, in bucket order. -/
def mapVals {κ α : Type} (m : List (κ × List α)) : List α :=
  (m.map fun e => e.2).flatten

/-- Total number of records held in a grouping map. -/
def mapSize {κ α : Type} (m : List (κ × List α)) : Nat :=
  (m.map fun e => e.2.length).sum

/-- The bank group stored under a key (empty when the key is absent). -/
def bankGroup (bm : List (GroupKey × List BankTransaction)) (k : GroupKey) :
    List BankTransaction :=
  (assocLookup bm k).getD []

/-- Whether a system map entry finds a bank group of equal size: exactly
the `ok && len(sysTxs) == len(bankTxs)` test of the Pass-2/3 loop. -/
def goodEntry (bm : List (GroupKey × List BankTransaction))
    (e : GroupKey × List SystemTransaction) : Bool :=
  match assocLookup bm e.1 with
  | some b => decide (e.2.length = b.length)
  | none => false

/-- Keys claimed by the Pass-2/3 loop. -/
def goodKeys (es : List (GroupKey × List SystemTransaction))
    (bm : List (GroupKey × List BankTransaction)) : List GroupKey :=
  (es.filter (goodEntry bm)).map Prod.fst

/-- The pairs the Pass-2/3 loop feeds to `processMatch`, in order. -/
def pass23Pairs (es : List (GroupKey × List SystemTransaction))
    (bm : List (GroupKey × List BankTransaction)) :
    List (SystemTransaction × BankTransaction) :=
  (es.filter (goodEntry bm)).flatMap fun e => e.2.zip (bankGroup bm e.1)

/-- Folding `matchGroup` over a list of system entries against fixed bank
groups. -/
def matchAll (bm : List (GroupKey × List BankTransaction))
    (es : List (GroupKey × List SystemTransaction)) (st : MatchState) :
    MatchState :=
  es.foldl (fun st e => matchGroup e.2 (bankGroup bm e.1) st) st

/-- Contents of one source bucket of the by-source map. -/
def bucket (m : List (String × List BankTransaction)) (src : String) :
    List BankTransaction :=
  (assocLookup m src).getD []

/-- Concrete record on the end calendar day at 23:30 (ns since the epoch):
the window is the single day 0. -/
def lateSys : SystemTransaction := ⟨"SYSLATE", 1, DEBIT, 84600000000000⟩

def lateBank : BankTransaction :=
  ⟨"BNKLATE", 1, 84600000000000, "fee", "bank_A.csv", 1, DEBIT⟩

/-- System record referenced by the bank record with duplicated identifier. -/
def dupSys : SystemTransaction := ⟨"TRX001", 100, DEBIT, 0⟩

/-- First bank record with identifier X (claimed in Pass 1). -/
def dupBankA : BankTransaction :=
  ⟨"X", 100, 0, "pay trxID:TRX001", "bank_A.csv", 100, DEBIT⟩

/-- Second bank record, from another file, with the same identifier X. -/
def dupBankB : BankTransaction :=
  ⟨"X", -55, 0, "other", "bank_B.csv", 55, DEBIT⟩

/-- System record whose amount rounds to the same cents as `divBank`. -/
def divSys : SystemTransaction := ⟨"S1", 100001/1000, DEBIT, 0⟩

/-- Bank record whose normalized amount differs from `divSys` by 0.003 but
rounds to the same cents. -/
def divBank : BankTransaction :=
  ⟨"B1", -(100004/1000), 0, "wire", "bank_A.csv", 100004/1000, DEBIT⟩

/-- First system record, in Pass-1 scan order. -/
def refS1 : SystemTransaction := ⟨"S1", 10, DEBIT, 0⟩

/-- Second system record; both bank records below reference it. -/
def refS2 : SystemTransaction := ⟨"S2", 20, DEBIT, 0⟩

/-- First bank record; its description references both S1 and S2. -/
def refB1 : BankTransaction :=
  ⟨"B1", 10, 0, "x trxID:S1 trxID:S2", "bank_A.csv", 10, DEBIT⟩

/-- Second bank record, referencing only S2. -/
def refB2 : BankTransaction :=
  ⟨"B2", 20, 0, "y trxID:S2", "bank_A.csv", 20, DEBIT⟩

/-- System record for the first-reference witness. -/
def wS : SystemTransaction := ⟨"W1", 10, DEBIT, 0⟩

/-- First bank record referencing W1. -/
def wB1 : BankTransaction :=
  ⟨"WB1", 10, 0, "pay trxID:W1", "bank_A.csv", 10, DEBIT⟩

/-- Second bank record referencing W1. -/
def wB2 : BankTransaction :=
  ⟨"WB2", 10, 0, "again trxID:W1", "bank_A.csv", 10, DEBIT⟩

/-- System record producing group key (day 0, DEBIT, 1000 cents). -/
def pS1 : SystemTransaction := ⟨"P1", 10, DEBIT, 0⟩

/-- System record producing group key (day 0, DEBIT, 2000 cents). -/
def pS2 : SystemTransaction := ⟨"P2", 20, DEBIT, 0⟩

/-- First bank record with identifier X, referencing only S1. -/
def dB1 : BankTransaction :=
  ⟨"X", 10, 0, "u trxID:S1", "bank_A.csv", 10, DEBIT⟩

/-- Second bank record, also with identifier X, referencing only S2. -/
def dB2 : BankTransaction :=
  ⟨"X", 20, 0, "v trxID:S2", "bank_B.csv", 20, DEBIT⟩

/-- Third bank record, with identifier Y, referencing only S2. -/
def dB3 : BankTransaction :=
  ⟨"Y", 20, 0, "w trxID:S2", "bank_A.csv", 20, DEBIT⟩

/-- First system record with duplicated identifier S. -/
def tS1 : SystemTransaction := ⟨"S", 1, DEBIT, 0⟩

/-- Second system record with the same identifier S but a different amount. -/
def tS2 : SystemTransaction := ⟨"S", 2, DEBIT, 0⟩

/-- Bank record referencing the duplicated identifier S. -/
def tB : BankTransaction :=
  ⟨"U", 1, 0, "pay trxID:S", "bank_A.csv", 1, DEBIT⟩

theorem round2_eq_round (a : ℚ) : round2 a = round (100 * a) := by
  rw [round_eq, round2]

/-! ### Derived notions used by the theorems -/

theorem goAppend_getD {α : Type} (s : GoSlice α) (xs : List α) :
    (goAppend s xs).getD [] = s.getD [] ++ xs := by
  cases xs <;> simp [goAppend]

theorem goAppend_goAppend {α : Type} (s : GoSlice α) (a b : List α) :
    goAppend (goAppend s a) b = goAppend s (a ++ b) := by
  cases a <;> cases b <;> simp [goAppend]

theorem goLen_eq {α : Type} (s : GoSlice α) : goLen s = (s.getD []).length := by
  cases s <;> simp [goLen]

theorem goAppend_isSome {α : Type} (s : GoSlice α) (xs : List α)
    (h : s.isSome = true) : (goAppend s xs).isSome = true := by
  cases xs <;> simp [goAppend, h]

theorem reportAfter_nil (r : ReconciliationReport) : reportAfter r [] = r := by
  simp [reportAfter, goAppend]

theorem reportAfter_append (r : ReconciliationReport)
    (a b : List (SystemTransaction × BankTransaction)) :
    reportAfter (reportAfter r a) b = reportAfter r (a ++ b) := by
  simp [reportAfter, goAppend_goAppend, Nat.add_assoc, add_assoc]

theorem processMatch_eq (r : ReconciliationReport) (s : SystemTransaction)
    (b : BankTransaction) : processMatch r s b = reportAfter r [(s, b)] := by
  by_cases h : epsilon < |s.amount - b.normalizedAmount|
  · simp [processMatch, reportAfter, h, isDisc, pairDiff, goPush, goAppend,
      mkDetail, goAppend_getD]
  · simp [processMatch, reportAfter, h, isDisc, pairDiff, goAppend]

theorem Extends.rfl (st : MatchState) : Extends st st :=
  ⟨[], by simp [traceSys, traceBank, reportAfter_nil]⟩

theorem Extends.trans {s₁ s₂ s₃ : MatchState} (h₁ : Extends s₁ s₂)
    (h₂ : Extends s₂ s₃) : Extends s₁ s₃ := by
  obtain ⟨a, ha₁, ha₂, ha₃, ha₄⟩ := h₁
  obtain ⟨b, hb₁, hb₂, hb₃, hb₄⟩ := h₂
  refine ⟨a ++ b, ?_, ?_, ?_, ?_⟩
  · simp [hb₁, ha₁]
  · simp [hb₂, ha₂, traceSys]
  · simp [hb₃, ha₃, traceBank]
  · rw [hb₄, ha₄, reportAfter_append]

theorem extends_applyMatch (st : MatchState) (s : SystemTransaction)
    (b : BankTransaction) : Extends st (applyMatch st s b) :=
  ⟨[(s, b)], by simp [applyMatch, traceSys, traceBank, processMatch_eq]⟩

theorem extends_pass1Inner (b : BankTransaction) (l : List SystemTransaction)
    (st : MatchState) : Extends st (pass1Inner b l st) := by
  induction l generalizing st with
  | nil => exact Extends.rfl st
  | cons s rest ih =>
    rw [pass1Inner]
    split
    · exact ih st
    · split
      · exact (extends_applyMatch st s b).trans (ih _)
      · exact ih st

theorem extends_pass1 (bl : List BankTransaction) (sl : List SystemTransaction)
    (st : MatchState) : Extends st (pass1 bl sl st) := by
  induction bl generalizing st with
  | nil => exact Extends.rfl st
  | cons b rest ih =>
    rw [pass1]
    exact (extends_pass1Inner b sl st).trans (ih _)

theorem extends_matchGroup (sl : List SystemTransaction)
    (bl : List BankTransaction) (st : MatchState) :
    Extends st (matchGroup sl bl st) := by
  rw [matchGroup]
  generalize sl.zip bl = ps
  induction ps generalizing st with
  | nil => exact Extends.rfl st
  | cons p rest ih =>
    rw [List.foldl_cons]
    exact (extends_applyMatch st p.1 p.2).trans (ih _)

theorem extends_pass23 (es : List (GroupKey × List SystemTransaction))
    (bm : List (GroupKey × List BankTransaction)) (st : MatchState) :
    Extends st (pass23 es bm st).2.2 := by
  induction es generalizing bm st with
  | nil => exact Extends.rfl st
  | cons e rest ih =>
    obtain ⟨k, sysTxs⟩ := e
    rw [pass23]
    cases h : assocLookup bm k with
    | some bankTxs =>
      simp only []
      split
      · exact (extends_matchGroup sysTxs bankTxs st).trans (ih _ _)
      · exact ih bm st
    | none =>
      simp only []
      exact ih bm st

/-! ### Pass 1 lemmas -/

theorem pass1Inner_spec (b : BankTransaction) (l : List SystemTransaction)
    (st : MatchState) : ∃ ts,
    (pass1Inner b l st).trace = st.trace ++ ts ∧
    (pass1Inner b l st).matchedSystem = st.matchedSystem ++ traceSys ts ∧
    (pass1Inner b l st).matchedBank = st.matchedBank ++ traceBank ts ∧
    (pass1Inner b l st).report = reportAfter st.report ts ∧
    ∀ p ∈ ts, p.2 = b ∧ p.1 ∈ l ∧ refersTo b p.1 = true ∧
      p.1.trxID ∉ st.matchedSystem ∧ b.uniqueIdentifier ∉ st.matchedBank := by
  induction l generalizing st with
  | nil =>
    exact ⟨[], by simp [pass1Inner, traceSys, traceBank, reportAfter_nil]⟩
  | cons s rest ih =>
    rw [pass1Inner]
    split
    · obtain ⟨ts, h₁, h₂, h₃, h₄, h₅⟩ := ih st
      exact ⟨ts, h₁, h₂, h₃, h₄, fun p hp =>
        ⟨(h₅ p hp).1, List.mem_cons_of_mem _ (h₅ p hp).2.1, (h₅ p hp).2.2⟩⟩
    · rename_i hguard
      push_neg at hguard
      split
      · rename_i href
        obtain ⟨ts, h₁, h₂, h₃, h₄, h₅⟩ := ih (applyMatch st s b)
        refine ⟨(s, b) :: ts, ?_, ?_, ?_, ?_, ?_⟩
        · rw [h₁]; simp [applyMatch]
        · rw [h₂]; simp [applyMatch, traceSys]
        · rw [h₃]; simp [applyMatch, traceBank]
        · rw [h₄]
          simp only [applyMatch, processMatch_eq]
          rw [reportAfter_append]
          rfl
        · intro p hp
          rcases List.mem_cons.mp hp with h | h
          · subst h
            exact ⟨Eq.refl b, List.mem_cons_self s rest, href, hguard.1, hguard.2⟩
          · have := h₅ p h
            refine ⟨this.1, List.mem_cons_of_mem _ this.2.1, this.2.2.1, ?_, hguard.2⟩
            intro hmem
            exact this.2.2.2.1 (by simp [applyMatch, hmem])
      · obtain ⟨ts, h₁, h₂, h₃, h₄, h₅⟩ := ih st
        exact ⟨ts, h₁, h₂, h₃, h₄, fun p hp =>
          ⟨(h₅ p hp).1, List.mem_cons_of_mem _ (h₅ p hp).2.1, (h₅ p hp).2.2⟩⟩

theorem pass1_spec (bl : List BankTransaction) (sl : List SystemTransaction)
    (st : MatchState) : ∃ ts,
    (pass1 bl sl st).trace = st.trace ++ ts ∧
    (pass1 bl sl st).matchedSystem = st.matchedSystem ++ traceSys ts ∧
    (pass1 bl sl st).matchedBank = st.matchedBank ++ traceBank ts ∧
    (pass1 bl sl st).report = reportAfter st.report ts ∧
    ∀ p ∈ ts, p.2 ∈ bl ∧ p.1 ∈ sl ∧ refersTo p.2 p.1 = true ∧
      p.1.trxID ∉ st.matchedSystem ∧ p.2.uniqueIdentifier ∉ st.matchedBank := by
  induction bl generalizing st with
  | nil => exact ⟨[], by simp [pass1, traceSys, traceBank, reportAfter_nil]⟩
  | cons b rest ih =>
    rw [pass1]
    obtain ⟨a, ha₁, ha₂, ha₃, ha₄, ha₅⟩ := pass1Inner_spec b sl st
    obtain ⟨c, hc₁, hc₂, hc₃, hc₄, hc₅⟩ := ih (pass1Inner b sl st)
    refine ⟨a ++ c, ?_, ?_, ?_, ?_, ?_⟩
    · simp [hc₁, ha₁]
    · simp [hc₂, ha₂, traceSys]
    · simp [hc₃, ha₃, traceBank]
    · rw [hc₄, ha₄, reportAfter_append]
    · intro p hp
      rcases List.mem_append.mp hp with h | h
      · obtain ⟨hb, hmem, href, hS, hB⟩ := ha₅ p h
        subst hb
        exact ⟨List.mem_cons_self _ rest, hmem, href, hS, hB⟩
      · have := hc₅ p h
        refine ⟨List.mem_cons_of_mem _ this.1, this.2.1, this.2.2.1, ?_, ?_⟩
        · intro hmem
          exact this.2.2.2.1 (by rw [ha₂]; exact List.mem_append_left _ hmem)
        · intro hmem
          exact this.2.2.2.2 (by rw [ha₃]; exact List.mem_append_left _ hmem)

theorem pass1Inner_nodup (b : BankTransaction) (l : List SystemTransaction)
    (st : MatchState) (hs : st.matchedSystem.Nodup) (hb : st.matchedBank.Nodup) :
    (pass1Inner b l st).matchedSystem.Nodup ∧
      (pass1Inner b l st).matchedBank.Nodup := by
  induction l generalizing st with
  | nil => exact ⟨hs, hb⟩
  | cons s rest ih =>
    rw [pass1Inner]
    split
    · exact ih st hs hb
    · rename_i hguard
      push_neg at hguard
      split
      · refine ih (applyMatch st s b) ?_ ?_
        · simp [applyMatch, List.nodup_append, hs, hguard.1]
        · simp [applyMatch, List.nodup_append, hb, hguard.2]
      · exact ih st hs hb

theorem pass1_nodup (bl : List BankTransaction) (sl : List SystemTransaction)
    (st : MatchState) (hs : st.matchedSystem.Nodup) (hb : st.matchedBank.Nodup) :
    (pass1 bl sl st).matchedSystem.Nodup ∧ (pass1 bl sl st).matchedBank.Nodup := by
  induction bl generalizing st with
  | nil => exact ⟨hs, hb⟩
  | cons b rest ih =>
    rw [pass1]
    obtain ⟨h₁, h₂⟩ := pass1Inner_nodup b sl st hs hb
    exact ih _ h₁ h₂

theorem pass1Inner_stable (b : BankTransaction) (l : List SystemTransaction)
    (st : MatchState) (h : b.uniqueIdentifier ∈ st.matchedBank) :
    pass1Inner b l st = st := by
  induction l with
  | nil => rfl
  | cons s rest ih =>
    rw [pass1Inner, if_pos (Or.inr h)]
    exact ih

theorem pass1Inner_hits (b : BankTransaction) (l₁ : List SystemTransaction)
    (s : SystemTransaction) (l₂ : List SystemTransaction) (st : MatchState)
    (h1 : ∀ s' ∈ l₁, s'.trxID ∈ st.matchedSystem ∨ refersTo b s' = false)
    (h2 : s.trxID ∉ st.matchedSystem) (h3 : b.uniqueIdentifier ∉ st.matchedBank)
    (h4 : refersTo b s = true) :
    pass1Inner b (l₁ ++ s :: l₂) st = applyMatch st s b := by
  induction l₁ with
  | nil =>
    rw [List.nil_append, pass1Inner, if_neg (by push_neg; exact ⟨h2, h3⟩),
      if_pos ((by rw [refersTo] at h4; exact h4))]
    exact pass1Inner_stable b l₂ _ (by simp [applyMatch])
  | cons s' rest ih =>
    rw [List.cons_append, pass1Inner]
    rcases h1 s' (List.mem_cons_self s' rest) with hc | hc
    · rw [if_pos (Or.inl hc)]
      exact ih fun x hx => h1 x (List.mem_cons_of_mem _ hx)
    · by_cases hm : s'.trxID ∈ st.matchedSystem ∨ b.uniqueIdentifier ∈ st.matchedBank
      · rw [if_pos hm]
        exact ih fun x hx => h1 x (List.mem_cons_of_mem _ hx)
      · rw [if_neg hm, if_neg (by rw [refersTo] at hc; simp [hc])]
        exact ih fun x hx => h1 x (List.mem_cons_of_mem _ hx)

/-! ### Association-list and grouping-map lemmas -/

theorem mapSize_eq {κ α : Type} (m : List (κ × List α)) :
    mapSize m = (mapVals m).length := by
  simp [mapVals, mapSize, Function.comp_def]

theorem assocPush_vals {κ α : Type} [DecidableEq κ] (m : List (κ × List α))
    (k : κ) (x : α) : (mapVals (assocPush m k x)).Perm (x :: mapVals m) := by
  induction m with
  | nil => simp [assocPush, mapVals]
  | cons e m ih =>
    obtain ⟨k', v⟩ := e
    rw [assocPush]
    split
    · simp only [mapVals, List.map_cons, List.flatten_cons, List.append_assoc,
        List.singleton_append]
      exact List.perm_middle
    · simp only [mapVals, List.map_cons, List.flatten_cons]
      exact ((ih.append_left v).trans List.perm_middle)

theorem assocPush_keys {κ α : Type} [DecidableEq κ] (m : List (κ × List α))
    (k : κ) (x : α) :
    (assocPush m k x).map Prod.fst = m.map Prod.fst ∨
      (assocPush m k x).map Prod.fst = m.map Prod.fst ++ [k] := by
  induction m with
  | nil => right; simp [assocPush]
  | cons e m ih =>
    obtain ⟨k', v⟩ := e
    rw [assocPush]
    split
    · left; simp
    · rcases ih with h | h
      · left; simp [h]
      · right; simp [h]

theorem assocPush_keys_nodup {κ α : Type} [DecidableEq κ]
    (m : List (κ × List α)) (k : κ) (x : α)
    (h : (m.map Prod.fst).Nodup) (hk : assocLookup m k = none) :
    ((assocPush m k x).map Prod.fst).Nodup := by
  induction m with
  | nil => simp [assocPush]
  | cons e m ih =>
    obtain ⟨k', v⟩ := e
    rw [assocPush]
    rw [assocLookup] at hk
    split
    · rename_i hkk
      rw [if_pos hkk] at hk
      exact absurd hk (by simp)
    · rename_i hkk
      rw [if_neg hkk] at hk
      simp only [List.map_cons, List.nodup_cons] at h ⊢
      refine ⟨?_, ih h.2 hk⟩
      intro hmem
      rcases assocPush_keys m k x with he | he
      · exact h.1 (he ▸ hmem)
      · rw [he, List.mem_append] at hmem
        rcases hmem with hm | hm
        · exact h.1 hm
        · simp at hm
          exact hkk hm

theorem assocLookup_eq_none {κ α : Type} [DecidableEq κ] (m : List (κ × α))
    (k : κ) : assocLookup m k = none ↔ k ∉ m.map Prod.fst := by
  induction m with
  | nil => simp [assocLookup]
  | cons e m ih =>
    obtain ⟨k', v⟩ := e
    rw [assocLookup]
    by_cases h : k' = k
    · simp [h]
    · simp [h, ih, Ne.symm h]

theorem assocLookup_assocPush_same {κ α : Type} [DecidableEq κ]
    (m : List (κ × List α)) (k : κ) (x : α) :
    assocLookup (assocPush m k x) k = some ((assocLookup m k).getD [] ++ [x]) := by
  induction m with
  | nil => simp [assocPush, assocLookup]
  | cons e m ih =>
    obtain ⟨k', v⟩ := e
    rw [assocPush]
    split
    · rename_i h
      rw [assocLookup, if_pos h, assocLookup, if_pos h]
      simp
    · rename_i h
      rw [assocLookup, if_neg h, assocLookup, if_neg h]
      exact ih

theorem assocLookup_assocPush_ne {κ α : Type} [DecidableEq κ]
    (m : List (κ × List α)) (k k' : κ) (x : α) (h : k ≠ k') :
    assocLookup (assocPush m k x) k' = assocLookup m k' := by
  induction m with
  | nil => simp [assocPush, assocLookup, h]
  | cons e m ih =>
    obtain ⟨k₀, v⟩ := e
    rw [assocPush]
    split
    · rename_i h₀
      rw [assocLookup, assocLookup,
        if_neg (by rw [h₀]; exact h), if_neg (by rw [h₀]; exact h)]
    · rename_i h₀
      rw [assocLookup, assocLookup]
      split
      · rfl
      · exact ih

theorem assocLookup_assocErase_ne {κ α : Type} [DecidableEq κ]
    (m : List (κ × α)) (k k' : κ) (h : k ≠ k') :
    assocLookup (assocErase m k) k' = assocLookup m k' := by
  induction m with
  | nil => rfl
  | cons e m ih =>
    obtain ⟨k₀, v⟩ := e
    rw [assocErase]
    split
    · rename_i h₀
      rw [assocLookup, if_neg (h₀ ▸ h)]
    · rw [assocLookup, assocLookup]
      split
      · rfl
      · exact ih

theorem assocErase_eq_filter {κ α : Type} [DecidableEq κ] (m : List (κ × α))
    (k : κ) (h : (m.map Prod.fst).Nodup) :
    assocErase m k = m.filter fun e => !decide (e.1 = k) := by
  induction m with
  | nil => rfl
  | cons e m ih =>
    obtain ⟨k₀, v⟩ := e
    simp only [List.map_cons, List.nodup_cons] at h
    rw [assocErase]
    split
    · rename_i h₀
      subst h₀
      rw [List.filter_cons_of_neg (by simp)]
      symm
      rw [List.filter_eq_self]
      intro e he
      simp only [Bool.not_eq_true', decide_eq_false_iff_not]
      intro hk
      exact h.1 (hk ▸ List.mem_map_of_mem Prod.fst he)
    · rename_i h₀
      rw [List.filter_cons_of_pos (by simp [h₀]), ih h.2]

theorem assocErase_size {κ α : Type} [DecidableEq κ] (m : List (κ × List α))
    (k : κ) (v : List α) (h : assocLookup m k = some v) :
    mapSize (assocErase m k) + v.length = mapSize m := by
  induction m with
  | nil => simp [assocLookup] at h
  | cons e m ih =>
    obtain ⟨k₀, w⟩ := e
    rw [assocLookup] at h
    rw [assocErase]
    split
    · rename_i h₀
      rw [if_pos h₀] at h
      obtain rfl : w = v := by injection h
      simp [mapSize, Nat.add_comm]
    · rename_i h₀
      rw [if_neg h₀] at h
      simp only [mapSize, List.map_cons, List.sum_cons] at ih ⊢
      have := ih h
      omega

theorem assocErase_keys_sublist {κ α : Type} [DecidableEq κ] (m : List (κ × α))
    (k : κ) : ((assocErase m k).map Prod.fst).Sublist (m.map Prod.fst) := by
  induction m with
  | nil => simp [assocErase]
  | cons e m ih =>
    obtain ⟨k₀, v⟩ := e
    rw [assocErase]
    split
    · simp
    · simpa using ih.cons₂ k₀

/-! ### buildMap lemmas -/

theorem buildMap_vals {κ α : Type} [DecidableEq κ] (key : α → κ)
    (claimed : α → Bool) (l : List α) (m : List (κ × List α)) :
    (mapVals (buildMap key claimed l m)).Perm
      (mapVals m ++ l.filter fun x => !claimed x) := by
  induction l generalizing m with
  | nil => simp [buildMap]
  | cons x l ih =>
    rw [buildMap]
    by_cases h : claimed x
    · rw [if_pos h, List.filter_cons_of_neg (by simp [h])]
      exact ih m
    · rw [if_neg h, List.filter_cons_of_pos (by simp [h])]
      refine (ih _).trans ?_
      refine ((assocPush_vals m (key x) x).append_right _).trans ?_
      rw [List.cons_append]
      exact (List.perm_middle).symm

theorem buildMap_keys_nodup {κ α : Type} [DecidableEq κ] (key : α → κ)
    (claimed : α → Bool) (l : List α) (m : List (κ × List α))
    (h : (m.map Prod.fst).Nodup) :
    ((buildMap key claimed l m).map Prod.fst).Nodup := by
  induction l generalizing m with
  | nil => exact h
  | cons x l ih =>
    rw [buildMap]
    split
    · exact ih m h
    · refine ih _ ?_
      cases hk : assocLookup m (key x) with
      | none => exact assocPush_keys_nodup m (key x) x h hk
      | some v =>
        have : (assocPush m (key x) x).map Prod.fst = m.map Prod.fst := by
          clear ih
          induction m with
          | nil => simp [assocLookup] at hk
          | cons e m ihm =>
            obtain ⟨k₀, w⟩ := e
            rw [assocLookup] at hk
            rw [assocPush]
            split
            · simp
            · rename_i h₀
              rw [if_neg h₀] at hk
              simp only [List.map_cons, List.cons.injEq, true_and]
              exact ihm (by simpa using (List.nodup_cons.mp (by simpa using h)).2) hk
        exact this ▸ h

theorem buildMap_entry_key {κ α : Type} [DecidableEq κ] (key : α → κ)
    (claimed : α → Bool) (l : List α) (m : List (κ × List α))
    (h : ∀ e ∈ m, ∀ y ∈ e.2, key y = e.1) :
    ∀ e ∈ buildMap key claimed l m, ∀ y ∈ e.2, key y = e.1 := by
  induction l generalizing m with
  | nil => exact h
  | cons x l ih =>
    rw [buildMap]
    split
    · exact ih m h
    · refine ih _ ?_
      clear ih
      induction m with
      | nil =>
        intro e he y hy
        simp only [assocPush, List.mem_singleton] at he
        subst he
        simp only [List.mem_singleton] at hy
        subst hy
        rfl
      | cons e₀ m ihm =>
        obtain ⟨k₀, w⟩ := e₀
        rw [assocPush]
        split
        · rename_i h₀
          intro e he y hy
          rcases List.mem_cons.mp he with rfl | hm
          · simp only [List.mem_append, List.mem_singleton] at hy
            rcases hy with hy | rfl
            · exact h (k₀, w) (List.mem_cons_self _ _) y hy
            · exact h₀.symm
          · exact h e (List.mem_cons_of_mem _ hm) y hy
        · intro e he y hy
          rcases List.mem_cons.mp he with rfl | hm
          · exact h (k₀, w) (List.mem_cons_self _ _) y hy
          · exact ihm (fun e' he' => h e' (List.mem_cons_of_mem _ he')) e hm y hy

theorem buildMap_entry_nonempty {κ α : Type} [DecidableEq κ] (key : α → κ)
    (claimed : α → Bool) (l : List α) (m : List (κ × List α))
    (h : ∀ e ∈ m, e.2 ≠ []) :
    ∀ e ∈ buildMap key claimed l m, e.2 ≠ [] := by
  induction l generalizing m with
  | nil => exact h
  | cons x l ih =>
    rw [buildMap]
    split
    · exact ih m h
    · refine ih _ ?_
      clear ih
      induction m with
      | nil =>
        intro e he
        simp only [assocPush, List.mem_singleton] at he
        subst he
        simp
      | cons e₀ m ihm =>
        obtain ⟨k₀, w⟩ := e₀
        rw [assocPush]
        split
        · intro e he
          rcases List.mem_cons.mp he with rfl | hm
          · simp
          · exact h e (List.mem_cons_of_mem _ hm)
        · intro e he
          rcases List.mem_cons.mp he with rfl | hm
          · exact h (k₀, w) (List.mem_cons_self _ _)
          · exact ihm (fun e' he' => h e' (List.mem_cons_of_mem _ he')) e hm

/-! ### Pass 2/3 characterization -/

theorem matchAll_cons (bm : List (GroupKey × List BankTransaction))
    (e : GroupKey × List SystemTransaction)
    (es : List (GroupKey × List SystemTransaction)) (st : MatchState) :
    matchAll bm (e :: es) st =
      matchAll bm es (matchGroup e.2 (bankGroup bm e.1) st) := rfl

theorem foldApply_spec (ps : List (SystemTransaction × BankTransaction))
    (st : MatchState) :
    (ps.foldl (fun st p => applyMatch st p.1 p.2) st).trace = st.trace ++ ps ∧
    (ps.foldl (fun st p => applyMatch st p.1 p.2) st).matchedSystem =
      st.matchedSystem ++ traceSys ps ∧
    (ps.foldl (fun st p => applyMatch st p.1 p.2) st).matchedBank =
      st.matchedBank ++ traceBank ps ∧
    (ps.foldl (fun st p => applyMatch st p.1 p.2) st).report =
      reportAfter st.report ps := by
  induction ps generalizing st with
  | nil => simp [traceSys, traceBank, reportAfter_nil]
  | cons p rest ih =>
    rw [List.foldl_cons]
    obtain ⟨h₁, h₂, h₃, h₄⟩ := ih (applyMatch st p.1 p.2)
    refine ⟨?_, ?_, ?_, ?_⟩
    · rw [h₁]; simp [applyMatch]
    · rw [h₂]; simp [applyMatch, traceSys]
    · rw [h₃]; simp [applyMatch, traceBank]
    · rw [h₄]
      simp only [applyMatch, processMatch_eq]
      rw [reportAfter_append]
      rfl

theorem matchGroup_spec (sl : List SystemTransaction)
    (bl : List BankTransaction) (st : MatchState) :
    (matchGroup sl bl st).trace = st.trace ++ sl.zip bl ∧
    (matchGroup sl bl st).matchedSystem =
      st.matchedSystem ++ traceSys (sl.zip bl) ∧
    (matchGroup sl bl st).matchedBank =
      st.matchedBank ++ traceBank (sl.zip bl) ∧
    (matchGroup sl bl st).report = reportAfter st.report (sl.zip bl) :=
  foldApply_spec (sl.zip bl) st

theorem matchAll_spec (bm : List (GroupKey × List BankTransaction))
    (es : List (GroupKey × List SystemTransaction)) (st : MatchState) :
    (matchAll bm es st).trace =
      st.trace ++ es.flatMap (fun e => e.2.zip (bankGroup bm e.1)) ∧
    (matchAll bm es st).matchedSystem = st.matchedSystem ++
      traceSys (es.flatMap fun e => e.2.zip (bankGroup bm e.1)) ∧
    (matchAll bm es st).matchedBank = st.matchedBank ++
      traceBank (es.flatMap fun e => e.2.zip (bankGroup bm e.1)) ∧
    (matchAll bm es st).report = reportAfter st.report
      (es.flatMap fun e => e.2.zip (bankGroup bm e.1)) := by
  induction es generalizing st with
  | nil => simp [matchAll, traceSys, traceBank, reportAfter_nil]
  | cons e rest ih =>
    rw [matchAll, List.foldl_cons]
    obtain ⟨h₁, h₂, h₃, h₄⟩ := ih (matchGroup e.2 (bankGroup bm e.1) st)
    obtain ⟨g₁, g₂, g₃, g₄⟩ := matchGroup_spec e.2 (bankGroup bm e.1) st
    rw [matchAll] at h₁ h₂ h₃ h₄
    refine ⟨?_, ?_, ?_, ?_⟩
    · rw [h₁, g₁]; simp
    · rw [h₂, g₂]; simp [traceSys]
    · rw [h₃, g₃]; simp [traceBank]
    · rw [h₄, g₄, reportAfter_append]
      simp

theorem matchAll_congr (bm₁ bm₂ : List (GroupKey × List BankTransaction))
    (es : List (GroupKey × List SystemTransaction)) (st : MatchState)
    (h : ∀ e ∈ es, bankGroup bm₁ e.1 = bankGroup bm₂ e.1) :
    matchAll bm₁ es st = matchAll bm₂ es st := by
  induction es generalizing st with
  | nil => rfl
  | cons e rest ih =>
    rw [matchAll, List.foldl_cons, matchAll, List.foldl_cons,
      h e (List.mem_cons_self _ _)]
    exact ih _ fun x hx => h x (List.mem_cons_of_mem _ hx)

theorem goodEntry_zip_length (bm : List (GroupKey × List BankTransaction))
    (e : GroupKey × List SystemTransaction) (h : goodEntry bm e = true) :
    (e.2.zip (bankGroup bm e.1)).length = e.2.length := by
  rw [goodEntry] at h
  cases hlk : assocLookup bm e.1 with
  | none => rw [hlk] at h; exact absurd h (by simp)
  | some b =>
    rw [hlk] at h
    simp only [decide_eq_true_eq] at h
    simp [bankGroup, hlk, h]

theorem pass23_spec (es : List (GroupKey × List SystemTransaction))
    (bm : List (GroupKey × List BankTransaction)) (st : MatchState)
    (hes : (es.map Prod.fst).Nodup) (hbm : (bm.map Prod.fst).Nodup) :
    (pass23 es bm st).1 = es.filter (fun e => !goodEntry bm e) ∧
    (pass23 es bm st).2.1 =
      bm.filter (fun e => !decide (e.1 ∈ goodKeys es bm)) ∧
    (pass23 es bm st).2.2 = matchAll bm (es.filter (goodEntry bm)) st := by
  induction es generalizing bm st with
  | nil =>
    refine ⟨rfl, ?_, rfl⟩
    simp [pass23, goodKeys]
  | cons e rest ih =>
    obtain ⟨k, sysTxs⟩ := e
    simp only [List.map_cons, List.nodup_cons] at hes
    have hknr : ∀ e' ∈ rest, e'.1 ≠ k := by
      intro e' he' hk
      exact hes.1 (hk ▸ List.mem_map_of_mem Prod.fst he')
    rw [pass23]
    cases hlk : assocLookup bm k with
    | some bankTxs =>
      simp only []
      by_cases hlen : sysTxs.length = bankTxs.length
      · rw [if_pos hlen]
        have hgood : goodEntry bm (k, sysTxs) = true := by
          simp [goodEntry, hlk, hlen]
        have hbm' : ((assocErase bm k).map Prod.fst).Nodup :=
          (assocErase_keys_sublist bm k).nodup hbm
        have hlook : ∀ e' ∈ rest,
            assocLookup (assocErase bm k) e'.1 = assocLookup bm e'.1 :=
          fun e' he' => assocLookup_assocErase_ne bm k e'.1 (hknr e' he').symm
        have hgood' : ∀ e' ∈ rest,
            goodEntry (assocErase bm k) e' = goodEntry bm e' := by
          intro e' he'
          rw [goodEntry, goodEntry, hlook e' he']
        have hfe : rest.filter (fun x => !goodEntry (assocErase bm k) x) =
            rest.filter (fun x => !goodEntry bm x) :=
          List.filter_congr fun x hx => by rw [hgood' x hx]
        have hff : rest.filter (goodEntry (assocErase bm k)) =
            rest.filter (goodEntry bm) :=
          List.filter_congr fun x hx => hgood' x hx
        obtain ⟨i₁, i₂, i₃⟩ := ih (assocErase bm k)
          (matchGroup sysTxs bankTxs st) hes.2 hbm'
        refine ⟨?_, ?_, ?_⟩
        · rw [i₁, hfe, List.filter_cons_of_neg (by simp [hgood])]
        · rw [i₂]
          have hgk : goodKeys rest (assocErase bm k) = goodKeys rest bm := by
            rw [goodKeys, goodKeys, hff]
          rw [hgk, assocErase_eq_filter bm k hbm, List.filter_filter]
          have hgkc : goodKeys ((k, sysTxs) :: rest) bm =
              k :: goodKeys rest bm := by
            rw [goodKeys, List.filter_cons_of_pos hgood, List.map_cons]
            rfl
          rw [hgkc]
          refine List.filter_congr fun x hx => ?_
          simp only [List.mem_cons, decide_not]
          by_cases h1 : x.1 = k
          · simp [h1]
          · simp [h1]
        · have hcong : ∀ e' ∈ rest.filter (goodEntry bm),
              bankGroup (assocErase bm k) e'.1 = bankGroup bm e'.1 := by
            intro e' he'
            rw [bankGroup, bankGroup, hlook e' (List.mem_of_mem_filter he')]
          rw [i₃, hff, matchAll_congr _ _ _ _ hcong,
            List.filter_cons_of_pos hgood, matchAll_cons]
          have : bankGroup bm (k, sysTxs).1 = bankTxs := by
            simp [bankGroup, hlk]
          rw [this]
      · rw [if_neg hlen]
        have hgood : goodEntry bm (k, sysTxs) = false := by
          simp [goodEntry, hlk, hlen]
        obtain ⟨i₁, i₂, i₃⟩ := ih bm st hes.2 hbm
        refine ⟨?_, ?_, ?_⟩
        · simp only []
          rw [i₁, List.filter_cons_of_pos (by simp [hgood])]
        · simp only []
          rw [i₂]
          have : goodKeys ((k, sysTxs) :: rest) bm = goodKeys rest bm := by
            rw [goodKeys, List.filter_cons_of_neg (by simp [hgood]), goodKeys]
          rw [this]
        · simp only []
          rw [i₃, List.filter_cons_of_neg (by simp [hgood])]
    | none =>
      simp only []
      have hgood : goodEntry bm (k, sysTxs) = false := by
        simp [goodEntry, hlk]
      obtain ⟨i₁, i₂, i₃⟩ := ih bm st hes.2 hbm
      refine ⟨?_, ?_, ?_⟩
      · rw [i₁, List.filter_cons_of_pos (by simp [hgood])]
      · rw [i₂]
        have : goodKeys ((k, sysTxs) :: rest) bm = goodKeys rest bm := by
          rw [goodKeys, List.filter_cons_of_neg (by simp [hgood]), goodKeys]
        rw [this]
      · rw [i₃, List.filter_cons_of_neg (by simp [hgood])]

theorem pass23_size_bank (es : List (GroupKey × List SystemTransaction))
    (bm : List (GroupKey × List BankTransaction)) (st : MatchState)
    (hes : (es.map Prod.fst).Nodup) (hbm : (bm.map Prod.fst).Nodup) :
    mapSize (pass23 es bm st).2.1 +
      ((es.filter (goodEntry bm)).map fun e => e.2.length).sum = mapSize bm := by
  induction es generalizing bm st with
  | nil => simp [pass23]
  | cons e rest ih =>
    obtain ⟨k, sysTxs⟩ := e
    simp only [List.map_cons, List.nodup_cons] at hes
    rw [pass23]
    cases hlk : assocLookup bm k with
    | some bankTxs =>
      simp only []
      by_cases hlen : sysTxs.length = bankTxs.length
      · rw [if_pos hlen]
        have hgood : goodEntry bm (k, sysTxs) = true := by
          simp [goodEntry, hlk, hlen]
        have hbm' : ((assocErase bm k).map Prod.fst).Nodup :=
          (assocErase_keys_sublist bm k).nodup hbm
        have hknr : ∀ e' ∈ rest, e'.1 ≠ k := by
          intro e' he' hk
          exact hes.1 (hk ▸ List.mem_map_of_mem Prod.fst he')
        have hgood' : ∀ e' ∈ rest,
            goodEntry (assocErase bm k) e' = goodEntry bm e' := by
          intro e' he'
          rw [goodEntry, goodEntry,
            assocLookup_assocErase_ne bm k e'.1 (hknr e' he').symm]
        have hff : rest.filter (goodEntry (assocErase bm k)) =
            rest.filter (goodEntry bm) :=
          List.filter_congr fun x hx => hgood' x hx
        have herase := assocErase_size bm k bankTxs hlk
        have := ih (assocErase bm k) (matchGroup sysTxs bankTxs st) hes.2 hbm'
        rw [hff] at this
        rw [List.filter_cons_of_pos hgood, List.map_cons, List.sum_cons]
        have hd : ((k, sysTxs).2).length = bankTxs.length := hlen
        omega
      · rw [if_neg hlen]
        have hgood : goodEntry bm (k, sysTxs) = false := by
          simp [goodEntry, hlk, hlen]
        have := ih bm st hes.2 hbm
        rw [List.filter_cons_of_neg (by simp [hgood])]
        simpa using this
    | none =>
      simp only []
      have hgood : goodEntry bm (k, sysTxs) = false := by
        simp [goodEntry, hlk]
      have := ih bm st hes.2 hbm
      rw [List.filter_cons_of_neg (by simp [hgood])]
      simpa using this

/-! ### Collation lemmas -/

theorem collateSystem_getD (res : List (GroupKey × List SystemTransaction))
    (s : GoSlice SystemTransaction) :
    (collateSystem res s).getD [] = s.getD [] ++ mapVals res := by
  induction res generalizing s with
  | nil => simp [collateSystem, mapVals]
  | cons e res ih =>
    rw [collateSystem, List.foldl_cons]
    have := ih (goAppend s e.2)
    rw [collateSystem] at this
    rw [this, goAppend_getD]
    simp [mapVals]

theorem collateBankOne_bucket (m : List (String × List BankTransaction))
    (txs : List BankTransaction) (src : String) :
    bucket (collateBankOne m txs) src =
      bucket m src ++ txs.filter fun b => decide (b.bankSource = src) := by
  induction txs generalizing m with
  | nil => simp [collateBankOne]
  | cons b txs ih =>
    rw [collateBankOne, List.foldl_cons]
    have := ih (assocPush m b.bankSource b)
    rw [collateBankOne] at this
    rw [this]
    by_cases h : b.bankSource = src
    · rw [List.filter_cons_of_pos (by simp [h])]
      subst h
      rw [bucket, assocLookup_assocPush_same]
      simp [bucket]
    · rw [List.filter_cons_of_neg (by simp [h]), bucket,
        assocLookup_assocPush_ne m _ _ b h, bucket]

theorem collateBank_bucket (res : List (GroupKey × List BankTransaction))
    (m : List (String × List BankTransaction)) (src : String) :
    bucket (collateBank res m) src =
      bucket m src ++ (mapVals res).filter fun b => decide (b.bankSource = src) := by
  induction res generalizing m with
  | nil => simp [collateBank, mapVals]
  | cons e res ih =>
    rw [collateBank, List.foldl_cons]
    have := ih (collateBankOne m e.2)
    rw [collateBank] at this
    rw [this, collateBankOne_bucket]
    simp [mapVals, List.filter_append]

theorem countBankMapItems_eq (m : List (String × List BankTransaction)) :
    countBankMapItems m = mapSize m := rfl

theorem assocPush_size {κ α : Type} [DecidableEq κ] (m : List (κ × List α))
    (k : κ) (x : α) : mapSize (assocPush m k x) = mapSize m + 1 := by
  rw [mapSize_eq, mapSize_eq, (assocPush_vals m k x).length_eq]
  simp [Nat.add_comm]

theorem collateBankOne_size (m : List (String × List BankTransaction))
    (txs : List BankTransaction) :
    mapSize (collateBankOne m txs) = mapSize m + txs.length := by
  induction txs generalizing m with
  | nil => simp [collateBankOne]
  | cons b txs ih =>
    rw [collateBankOne, List.foldl_cons]
    have := ih (assocPush m b.bankSource b)
    rw [collateBankOne] at this
    rw [this, assocPush_size]
    simp [Nat.add_assoc, Nat.add_comm 1]

theorem collateBank_size (res : List (GroupKey × List BankTransaction))
    (m : List (String × List BankTransaction)) :
    mapSize (collateBank res m) = mapSize m + mapSize res := by
  induction res generalizing m with
  | nil => simp [collateBank, mapSize]
  | cons e res ih =>
    rw [collateBank, List.foldl_cons]
    have := ih (collateBankOne m e.2)
    rw [collateBank] at this
    rw [this, collateBankOne_size]
    simp [mapSize, Nat.add_assoc]

/-! ### Counting helpers -/

theorem sum_map_filter_add {α : Type} (l : List α) (f : α → Nat) (p : α → Bool) :
    ((l.filter p).map f).sum + ((l.filter fun x => !p x).map f).sum =
      (l.map f).sum := by
  induction l with
  | nil => simp
  | cons x l ih =>
    by_cases h : p x
    · rw [List.filter_cons_of_pos h, List.filter_cons_of_neg (by simp [h])]
      simp only [List.map_cons, List.sum_cons]
      omega
    · rw [List.filter_cons_of_neg (by simpa using h),
        List.filter_cons_of_pos (by simpa using h)]
      simp only [List.map_cons, List.sum_cons]
      omega

theorem map_filter_comm {β γ : Type} [DecidableEq γ] (L : List β)
    (f : β → γ) (m : List γ) :
    (L.filter fun a => decide (f a ∈ m)).map f =
      (L.map f).filter fun x => decide (x ∈ m) := by
  induction L with
  | nil => rfl
  | cons a L ih =>
    by_cases h : f a ∈ m
    · rw [List.map_cons, List.filter_cons_of_pos (by simpa using h),
        List.filter_cons_of_pos (by simpa using h), List.map_cons, ih]
    · rw [List.map_cons, List.filter_cons_of_neg (by simpa using h),
        List.filter_cons_of_neg (by simpa using h), ih]

theorem filter_mem_length_eq {β γ : Type} [DecidableEq γ] (L : List β)
    (f : β → γ) (m : List γ) (hL : (L.map f).Nodup) (hm : m.Nodup)
    (hsub : ∀ x ∈ m, x ∈ L.map f) :
    (L.filter fun a => decide (f a ∈ m)).length = m.length := by
  have hmap := map_filter_comm L f m
  have h1 : (L.filter fun a => decide (f a ∈ m)).length =
      ((L.map f).filter fun x => decide (x ∈ m)).length := by
    rw [← hmap, List.length_map]
  rw [h1]
  have hnd : ((L.map f).filter fun x => decide (x ∈ m)).Nodup :=
    hL.filter _
  have hfin : ((L.map f).filter fun x => decide (x ∈ m)).toFinset =
      m.toFinset := by
    ext x
    simp only [List.mem_toFinset, List.mem_filter, decide_eq_true_eq]
    constructor
    · exact fun h => h.2
    · exact fun h => ⟨hsub x h, h⟩
  rw [← List.toFinset_card_of_nodup hnd, hfin, List.toFinset_card_of_nodup hm]

theorem filter_mem_length_le {β γ : Type} [DecidableEq γ] (L : List β)
    (f : β → γ) (m : List γ) (hm : m.Nodup)
    (hsub : ∀ x ∈ m, x ∈ L.map f) :
    m.length ≤ (L.filter fun a => decide (f a ∈ m)).length := by
  have hsub2 : m.toFinset ⊆ ((L.filter fun a => decide (f a ∈ m)).map f).toFinset := by
    intro x hx
    simp only [List.mem_toFinset] at hx ⊢
    obtain ⟨a, ha, rfl⟩ := List.mem_map.mp (hsub x hx)
    exact List.mem_map_of_mem f (List.mem_filter.mpr ⟨ha, by simpa using hx⟩)
  calc m.length = m.toFinset.card := (List.toFinset_card_of_nodup hm).symm
    _ ≤ ((L.filter fun a => decide (f a ∈ m)).map f).toFinset.card :=
        Finset.card_le_card hsub2
    _ ≤ ((L.filter fun a => decide (f a ∈ m)).map f).length :=
        List.toFinset_card_le _
    _ = (L.filter fun a => decide (f a ∈ m)).length := List.length_map _ _

/-! ### Stage-level facts -/

theorem stageOne_spec (sys : List SystemTransaction)
    (bank : List BankTransaction) (startT endT : Int) :
    (stageOne sys bank startT endT).matchedSystem =
      traceSys (stageOne sys bank startT endT).trace ∧
    (stageOne sys bank startT endT).matchedBank =
      traceBank (stageOne sys bank startT endT).trace ∧
    (stageOne sys bank startT endT).report = reportAfter
      (initialReport startT endT
        (filterSystemTransactionsByDate sys startT endT).length
        (filterBankTransactionsByDate bank startT endT).length)
      (stageOne sys bank startT endT).trace ∧
    (stageOne sys bank startT endT).matchedSystem.Nodup ∧
    (stageOne sys bank startT endT).matchedBank.Nodup ∧
    ∀ p ∈ (stageOne sys bank startT endT).trace,
      p.1 ∈ filterSystemTransactionsByDate sys startT endT ∧
      p.2 ∈ filterBankTransactionsByDate bank startT endT ∧
      refersTo p.2 p.1 = true := by
  obtain ⟨ts, h₁, h₂, h₃, h₄, h₅⟩ :=
    pass1_spec (filterBankTransactionsByDate bank startT endT)
      (filterSystemTransactionsByDate sys startT endT)
      (initState (initialReport startT endT
        (filterSystemTransactionsByDate sys startT endT).length
        (filterBankTransactionsByDate bank startT endT).length))
  have hts : ts = (stageOne sys bank startT endT).trace := by
    rw [stageOne, h₁]
    simp [initState]
  obtain ⟨hn₁, hn₂⟩ := pass1_nodup (filterBankTransactionsByDate bank startT endT)
    (filterSystemTransactionsByDate sys startT endT)
    (initState (initialReport startT endT
      (filterSystemTransactionsByDate sys startT endT).length
      (filterBankTransactionsByDate bank startT endT).length))
    (by simp [initState]) (by simp [initState])
  refine ⟨?_, ?_, ?_, ?_, ?_, ?_⟩
  · rw [← hts, stageOne, h₂]
    simp [initState]
  · rw [← hts, stageOne, h₃]
    simp [initState]
  · rw [← hts, stageOne, h₄]
    simp [initState]
  · exact hn₁
  · exact hn₂
  · intro p hp
    rw [← hts] at hp
    exact ⟨(h₅ p hp).2.1, (h₅ p hp).1, (h₅ p hp).2.2.1⟩

theorem sysMap_keys_nodup (sys : List SystemTransaction)
    (bank : List BankTransaction) (startT endT : Int) :
    ((sysMapStage sys bank startT endT).map Prod.fst).Nodup :=
  buildMap_keys_nodup _ _ _ [] (by simp)

theorem bankMap_keys_nodup (sys : List SystemTransaction)
    (bank : List BankTransaction) (startT endT : Int) :
    ((bankMapStage sys bank startT endT).map Prod.fst).Nodup :=
  buildMap_keys_nodup _ _ _ [] (by simp)

theorem sysMap_vals (sys : List SystemTransaction)
    (bank : List BankTransaction) (startT endT : Int) :
    (mapVals (sysMapStage sys bank startT endT)).Perm
      ((filterSystemTransactionsByDate sys startT endT).filter fun s =>
        !decide (s.trxID ∈ (stageOne sys bank startT endT).matchedSystem)) := by
  have := buildMap_vals systemKey
    (fun s => decide (s.trxID ∈ (stageOne sys bank startT endT).matchedSystem))
    (filterSystemTransactionsByDate sys startT endT) []
  simpa [mapVals] using this

theorem bankMap_vals (sys : List SystemTransaction)
    (bank : List BankTransaction) (startT endT : Int) :
    (mapVals (bankMapStage sys bank startT endT)).Perm
      ((filterBankTransactionsByDate bank startT endT).filter fun b =>
        !decide (b.uniqueIdentifier ∈ (stageOne sys bank startT endT).matchedBank)) := by
  have := buildMap_vals bankKey
    (fun b => decide (b.uniqueIdentifier ∈ (stageOne sys bank startT endT).matchedBank))
    (filterBankTransactionsByDate bank startT endT) []
  simpa [mapVals] using this

theorem sysMap_entry_nonempty (sys : List SystemTransaction)
    (bank : List BankTransaction) (startT endT : Int) :
    ∀ e ∈ sysMapStage sys bank startT endT, e.2 ≠ [] :=
  buildMap_entry_nonempty _ _ _ [] (by simp)

theorem sysMap_entry_key (sys : List SystemTransaction)
    (bank : List BankTransaction) (startT endT : Int) :
    ∀ e ∈ sysMapStage sys bank startT endT, ∀ y ∈ e.2, systemKey y = e.1 :=
  buildMap_entry_key _ _ _ [] (by simp)

theorem bankMap_entry_key (sys : List SystemTransaction)
    (bank : List BankTransaction) (startT endT : Int) :
    ∀ e ∈ bankMapStage sys bank startT endT, ∀ y ∈ e.2, bankKey y = e.1 :=
  buildMap_entry_key _ _ _ [] (by simp)

theorem stageTwo_spec (sys : List SystemTransaction)
    (bank : List BankTransaction) (startT endT : Int) :
    (stageTwo sys bank startT endT).1 =
      (sysMapStage sys bank startT endT).filter
        (fun e => !goodEntry (bankMapStage sys bank startT endT) e) ∧
    (stageTwo sys bank startT endT).2.1 =
      (bankMapStage sys bank startT endT).filter
        (fun e => !decide (e.1 ∈ goodKeys (sysMapStage sys bank startT endT)
          (bankMapStage sys bank startT endT))) ∧
    (stageTwo sys bank startT endT).2.2 =
      matchAll (bankMapStage sys bank startT endT)
        ((sysMapStage sys bank startT endT).filter
          (goodEntry (bankMapStage sys bank startT endT)))
        (stageOne sys bank startT endT) :=
  pass23_spec _ _ _ (sysMap_keys_nodup sys bank startT endT)
    (bankMap_keys_nodup sys bank startT endT)

theorem stageTwo_trace (sys : List SystemTransaction)
    (bank : List BankTransaction) (startT endT : Int) :
    (stageTwo sys bank startT endT).2.2.trace =
      (stageOne sys bank startT endT).trace ++
        pass23Pairs (sysMapStage sys bank startT endT)
          (bankMapStage sys bank startT endT) := by
  rw [(stageTwo_spec sys bank startT endT).2.2, pass23Pairs]
  exact (matchAll_spec _ _ _).1

theorem stageTwo_report (sys : List SystemTransaction)
    (bank : List BankTransaction) (startT endT : Int) :
    (stageTwo sys bank startT endT).2.2.report = reportAfter
      (initialReport startT endT
        (filterSystemTransactionsByDate sys startT endT).length
        (filterBankTransactionsByDate bank startT endT).length)
      (stageTwo sys bank startT endT).2.2.trace := by
  rw [(stageTwo_spec sys bank startT endT).2.2]
  have h := (matchAll_spec (bankMapStage sys bank startT endT)
    ((sysMapStage sys bank startT endT).filter
      (goodEntry (bankMapStage sys bank startT endT)))
    (stageOne sys bank startT endT))
  rw [h.2.2.2, h.1, (stageOne_spec sys bank startT endT).2.2.1,
    reportAfter_append]

theorem goAppend_some {α : Type} (l : List α) (xs : List α) :
    goAppend (some l) xs = some (l ++ xs) := by
  cases xs <;> simp [goAppend]

theorem length_filter_split {α : Type} (l : List α) (p : α → Bool) :
    (l.filter p).length + (l.filter fun x => !p x).length = l.length := by
  induction l with
  | nil => simp
  | cons x l ih =>
    by_cases h : p x
    · rw [List.filter_cons_of_pos h, List.filter_cons_of_neg (by simp [h])]
      simp only [List.length_cons]
      omega
    · rw [List.filter_cons_of_neg (by simpa using h),
        List.filter_cons_of_pos (by simpa using h)]
      simp only [List.length_cons]
      omega

theorem pass23Pairs_length (es : List (GroupKey × List SystemTransaction))
    (bm : List (GroupKey × List BankTransaction)) :
    (pass23Pairs es bm).length =
      ((es.filter (goodEntry bm)).map fun e => e.2.length).sum := by
  rw [pass23Pairs, List.length_flatMap]
  congr 1
  refine List.map_congr_left fun e he => ?_
  exact goodEntry_zip_length bm e (List.of_mem_filter he)

/-- Decomposition of an assembled report whose matching state evolved from
an initial report by its own trace. -/
theorem assemble_parts (startT endT : Int) (nS nB : Nat) (st : MatchState)
    (resS : List (GroupKey × List SystemTransaction))
    (resB : List (GroupKey × List BankTransaction))
    (h : st.report = reportAfter (initialReport startT endT nS nB) st.trace) :
    (assemble st resS resB).reconciliationSummary = {
      timeframeStart := dayOf startT
      timeframeEnd := dayOf endT
      totalSystemTransactionsProcessed := nS
      totalBankTransactionsProcessed := nB
      matchedTransactions := st.trace.length } ∧
    (assemble st resS resB).discrepantTransactions = {
      count := (st.trace.filter isDisc).length
      totalDiscrepancyValue := ((st.trace.filter isDisc).map pairDiff).sum
      details := some ((st.trace.filter isDisc).map mkDetail) } ∧
    (assemble st resS resB).unmatchedTransactions = {
      count := mapSize resS + mapSize resB
      systemMissingFromBank := collateSystem resS none
      bankMissingFromSystem := some (collateBank resB []) } := by
  refine ⟨?_, ?_, ?_⟩
  · rw [assemble]
    simp only []
    rw [h]
    simp [reportAfter, initialReport]
  · rw [assemble]
    simp only []
    rw [h]
    simp [reportAfter, initialReport, goAppend_some]
  · rw [assemble]
    simp only []
    rw [h]
    simp only [reportAfter, initialReport]
    congr 1
    · rw [goLen_eq, collateSystem_getD, countBankMapItems_eq]
      simp only [Option.getD_some]
      rw [collateBank_size]
      simp only [Option.getD_none, List.nil_append, mapSize, List.map_nil,
        List.sum_nil, Nat.zero_add]
      congr 1
      exact (mapSize_eq _).symm

/-- Decomposition of the final report: summary totals and timeframe come
from the initial report, matched count and the discrepancy block are a
function of the full match trace, and the unmatched block is the collation
of the two residues. -/
theorem reconcile_parts (sys : List SystemTransaction)
    (bank : List BankTransaction) (startT endT : Int) :
    (reconcile sys bank startT endT).reconciliationSummary = {
      timeframeStart := dayOf startT
      timeframeEnd := dayOf endT
      totalSystemTransactionsProcessed :=
        (filterSystemTransactionsByDate sys startT endT).length
      totalBankTransactionsProcessed :=
        (filterBankTransactionsByDate bank startT endT).length
      matchedTransactions := (stageTwo sys bank startT endT).2.2.trace.length } ∧
    (reconcile sys bank startT endT).discrepantTransactions = {
      count := ((stageTwo sys bank startT endT).2.2.trace.filter isDisc).length
      totalDiscrepancyValue := (((stageTwo sys bank startT endT).2.2.trace.filter
        isDisc).map pairDiff).sum
      details := some (((stageTwo sys bank startT endT).2.2.trace.filter
        isDisc).map mkDetail) } ∧
    (reconcile sys bank startT endT).unmatchedTransactions = {
      count := mapSize (stageTwo sys bank startT endT).1 +
        mapSize (stageTwo sys bank startT endT).2.1
      systemMissingFromBank :=
        collateSystem (stageTwo sys bank startT endT).1 none
      bankMissingFromSystem :=
        some (collateBank (stageTwo sys bank startT endT).2.1 []) } :=
  assemble_parts startT endT
    (filterSystemTransactionsByDate sys startT endT).length
    (filterBankTransactionsByDate bank startT endT).length
    (stageTwo sys bank startT endT).2.2
    (stageTwo sys bank startT endT).1
    (stageTwo sys bank startT endT).2.1
    (stageTwo_report sys bank startT endT)

/-- C1 (amended): provided the filtered system transactions carry pairwise
distinct TrxIDs and the filtered bank transactions pairwise distinct
UniqueIdentifiers, the matched count plus the system-only list length
equals the number of filtered system transactions, and the matched count
plus the total across all bank-only buckets equals the number of filtered
bank transactions — every filtered record lands in exactly one bucket. -/
theorem reconcilePartition (sys : List SystemTransaction)
    (bank : List BankTransaction) (startT endT : Int)
    (hS : ((filterSystemTransactionsByDate sys startT endT).map
      SystemTransaction.trxID).Nodup)
    (hB : ((filterBankTransactionsByDate bank startT endT).map
      BankTransaction.uniqueIdentifier).Nodup) :
    (reconcile sys bank startT endT).reconciliationSummary.matchedTransactions +
      goLen (reconcile sys bank startT
        endT).unmatchedTransactions.systemMissingFromBank =
      (filterSystemTransactionsByDate sys startT endT).length ∧
    (reconcile sys bank startT endT).reconciliationSummary.matchedTransactions +
      countBankMapItems ((reconcile sys bank startT
        endT).unmatchedTransactions.bankMissingFromSystem.getD []) =
      (filterBankTransactionsByDate bank startT endT).length := by
  obtain ⟨hsum, hdisc, hunm⟩ := reconcile_parts sys bank startT endT
  obtain ⟨hmS, hmB, hrep, hndS, hndB, hpair⟩ := stageOne_spec sys bank startT endT
  obtain ⟨hp1, hp2, hp3⟩ := stageTwo_spec sys bank startT endT
  have hst2 : stageTwo sys bank startT endT =
      pass23 (sysMapStage sys bank startT endT)
        (bankMapStage sys bank startT endT)
        (stageOne sys bank startT endT) := rfl
  -- matched count equals Pass-1 trace length plus the good-group sizes
  have hmatched : (reconcile sys bank startT
      endT).reconciliationSummary.matchedTransactions =
      (stageOne sys bank startT endT).trace.length +
        (((sysMapStage sys bank startT endT).filter
          (goodEntry (bankMapStage sys bank startT endT))).map
            fun e => e.2.length).sum := by
    rw [hsum]
    simp only []
    rw [stageTwo_trace, List.length_append, pass23Pairs_length]
  -- the system-only list holds exactly the bad-group records
  have hsysmiss : goLen (reconcile sys bank startT
      endT).unmatchedTransactions.systemMissingFromBank =
      (((sysMapStage sys bank startT endT).filter
        fun e => !goodEntry (bankMapStage sys bank startT endT) e).map
          fun e => e.2.length).sum := by
    rw [hunm]
    simp only [goLen_eq, collateSystem_getD, Option.getD_none, List.nil_append]
    rw [hp1, ← mapSize_eq]
    rfl
  -- good and bad groups together hold the whole system map
  have hsplit := sum_map_filter_add (sysMapStage sys bank startT endT)
    (fun e => e.2.length) (goodEntry (bankMapStage sys bank startT endT))
  -- the system map holds exactly the unclaimed filtered system records
  have hsmsize : mapSize (sysMapStage sys bank startT endT) =
      ((filterSystemTransactionsByDate sys startT endT).filter fun s =>
        !decide (s.trxID ∈ (stageOne sys bank startT
          endT).matchedSystem)).length := by
    rw [mapSize_eq, (sysMap_vals sys bank startT endT).length_eq]
  -- claimed system records are counted by the claim list
  have hclaimS : ((filterSystemTransactionsByDate sys startT endT).filter
      fun s => decide (s.trxID ∈ (stageOne sys bank startT
        endT).matchedSystem)).length =
      (stageOne sys bank startT endT).matchedSystem.length := by
    refine filter_mem_length_eq _ _ _ hS hndS ?_
    intro x hx
    rw [hmS, traceSys] at hx
    obtain ⟨p, hp, rfl⟩ := List.mem_map.mp hx
    exact List.mem_map_of_mem _ (hpair p hp).1
  have hmSlen : (stageOne sys bank startT endT).matchedSystem.length =
      (stageOne sys bank startT endT).trace.length := by
    rw [hmS, traceSys, List.length_map]
  have hfSsplit := length_filter_split
    (filterSystemTransactionsByDate sys startT endT)
    (fun s => decide (s.trxID ∈ (stageOne sys bank startT endT).matchedSystem))
  -- bank side
  have hbankmiss : countBankMapItems ((reconcile sys bank startT
      endT).unmatchedTransactions.bankMissingFromSystem.getD []) =
      mapSize (stageTwo sys bank startT endT).2.1 := by
    rw [hunm]
    simp only [Option.getD_some]
    rw [countBankMapItems_eq, collateBank_size]
    simp [mapSize]
  have hbanksize := pass23_size_bank (sysMapStage sys bank startT endT)
    (bankMapStage sys bank startT endT) (stageOne sys bank startT endT)
    (sysMap_keys_nodup sys bank startT endT)
    (bankMap_keys_nodup sys bank startT endT)
  rw [← hst2] at hbanksize
  have hbmsize : mapSize (bankMapStage sys bank startT endT) =
      ((filterBankTransactionsByDate bank startT endT).filter fun b =>
        !decide (b.uniqueIdentifier ∈ (stageOne sys bank startT
          endT).matchedBank)).length := by
    rw [mapSize_eq, (bankMap_vals sys bank startT endT).length_eq]
  have hclaimB : ((filterBankTransactionsByDate bank startT endT).filter
      fun b => decide (b.uniqueIdentifier ∈ (stageOne sys bank startT
        endT).matchedBank)).length =
      (stageOne sys bank startT endT).matchedBank.length := by
    refine filter_mem_length_eq _ _ _ hB hndB ?_
    intro x hx
    rw [hmB, traceBank] at hx
    obtain ⟨p, hp, rfl⟩ := List.mem_map.mp hx
    exact List.mem_map_of_mem _ (hpair p hp).2.1
  have hmBlen : (stageOne sys bank startT endT).matchedBank.length =
      (stageOne sys bank startT endT).trace.length := by
    rw [hmB, traceBank, List.length_map]
  have hfBsplit := length_filter_split
    (filterBankTransactionsByDate bank startT endT)
    (fun b => decide (b.uniqueIdentifier ∈
      (stageOne sys bank startT endT).matchedBank))
  simp only [mapSize] at hsmsize hbmsize hbanksize hbankmiss
  constructor
  · rw [hmatched, hsysmiss]
    omega
  · rw [hmatched, hbankmiss]
    omega

theorem assocLookup_mem {κ α : Type} [DecidableEq κ] {m : List (κ × α)}
    {k : κ} {v : α} (h : assocLookup m k = some v) : (k, v) ∈ m := by
  induction m with
  | nil => simp [assocLookup] at h
  | cons e₀ m ih =>
    obtain ⟨k₀, v₀⟩ := e₀
    rw [assocLookup] at h
    by_cases hk : k₀ = k
    · rw [if_pos hk] at h
      subst hk
      obtain rfl : v₀ = v := by injection h
      exact List.mem_cons_self _ _
    · rw [if_neg hk] at h
      exact List.mem_cons_of_mem _ (ih h)

theorem mapSize_zero {κ α : Type} (m : List (κ × List α))
    (h : mapSize m = 0) (hne : ∀ e ∈ m, e.2 ≠ []) : m = [] := by
  cases m with
  | nil => rfl
  | cons e rest =>
    exfalso
    simp only [mapSize, List.map_cons, List.sum_cons] at h
    exact hne e (List.mem_cons_self _ _) (List.length_eq_zero.mp (by omega))

theorem groupedPairsSameKey (sys : List SystemTransaction)
    (bank : List BankTransaction) (startT endT : Int) :
    ∀ p ∈ pass23Pairs (sysMapStage sys bank startT endT)
      (bankMapStage sys bank startT endT),
      systemKey p.1 = bankKey p.2 ∧
        round2 p.1.amount = round2 p.2.normalizedAmount := by
  intro p hp
  rw [pass23Pairs] at hp
  obtain ⟨e, he, hpz⟩ := List.mem_flatMap.mp hp
  have hgood : goodEntry (bankMapStage sys bank startT endT) e = true :=
    List.of_mem_filter he
  have hesm : e ∈ sysMapStage sys bank startT endT := List.mem_of_mem_filter he
  obtain ⟨hp1, hp2⟩ := List.of_mem_zip hpz
  have hks : systemKey p.1 = e.1 :=
    sysMap_entry_key sys bank startT endT e hesm p.1 hp1
  have hlk : assocLookup (bankMapStage sys bank startT endT) e.1 ≠ none := by
    intro hc
    rw [goodEntry, hc] at hgood
    exact absurd hgood (by simp)
  obtain ⟨B, hB⟩ := Option.ne_none_iff_exists'.mp hlk
  have hmem : (e.1, B) ∈ bankMapStage sys bank startT endT := assocLookup_mem hB
  have hkb : bankKey p.2 = e.1 := by
    refine bankMap_entry_key sys bank startT endT (e.1, B) hmem p.2 ?_
    have : bankGroup (bankMapStage sys bank startT endT) e.1 = B := by
      simp [bankGroup, hB]
    rw [← this]
    exact hp2
  constructor
  · rw [hks, hkb]
  · have := hks.trans hkb.symm
    rw [systemKey, bankKey, buildGroupKey, buildGroupKey] at this
    exact congrArg (fun k => k.2.2) this

/-- C4: records still unclaimed after Pass 1 are grouped by
(calendar day, kind, amount rounded to 2 decimals — normalized amount on
the bank side): every grouped record carries its `systemKey`/`bankKey` as
its bucket key and the buckets partition exactly the unclaimed filtered
records; the Pass-2/3 trace extension is `pass23Pairs` — the positionwise
zip of the two groups for every key whose groups have equal size
(`goodEntry`) — and when the sizes differ or the key is one-sided both
whole groups survive into the residues, with no partial pairing. -/
theorem groupedMatching (sys : List SystemTransaction)
    (bank : List BankTransaction) (startT endT : Int) :
    (∀ e ∈ sysMapStage sys bank startT endT, ∀ x ∈ e.2, systemKey x = e.1) ∧
    (∀ e ∈ bankMapStage sys bank startT endT, ∀ y ∈ e.2, bankKey y = e.1) ∧
    (mapVals (sysMapStage sys bank startT endT)).Perm
      ((filterSystemTransactionsByDate sys startT endT).filter fun s =>
        !decide (s.trxID ∈ (stageOne sys bank startT endT).matchedSystem)) ∧
    (mapVals (bankMapStage sys bank startT endT)).Perm
      ((filterBankTransactionsByDate bank startT endT).filter fun b =>
        !decide (b.uniqueIdentifier ∈
          (stageOne sys bank startT endT).matchedBank)) ∧
    (stageTwo sys bank startT endT).2.2.trace =
      (stageOne sys bank startT endT).trace ++
        pass23Pairs (sysMapStage sys bank startT endT)
          (bankMapStage sys bank startT endT) ∧
    (stageTwo sys bank startT endT).1 =
      (sysMapStage sys bank startT endT).filter
        (fun e => !goodEntry (bankMapStage sys bank startT endT) e) ∧
    (stageTwo sys bank startT endT).2.1 =
      (bankMapStage sys bank startT endT).filter
        (fun e => !decide (e.1 ∈ goodKeys (sysMapStage sys bank startT endT)
          (bankMapStage sys bank startT endT))) :=
  ⟨sysMap_entry_key sys bank startT endT,
   bankMap_entry_key sys bank startT endT,
   sysMap_vals sys bank startT endT,
   bankMap_vals sys bank startT endT,
   stageTwo_trace sys bank startT endT,
   (stageTwo_spec sys bank startT endT).1,
   (stageTwo_spec sys bank startT endT).2.1⟩

/-- C6: the matched count equals the number of `processMatch` calls, and
the discrepancy block is exactly the epsilon-filtered trace: the count is
the number of pairs whose absolute amount difference exceeds 0.001, the
total is the sum of those absolute differences, and the details list holds
exactly those pairs — pairs within the epsilon never appear in it. -/
theorem discrepancyParts (sys : List SystemTransaction)
    (bank : List BankTransaction) (startT endT : Int) :
    (reconcile sys bank startT endT).reconciliationSummary.matchedTransactions =
      (stageTwo sys bank startT endT).2.2.trace.length ∧
    (reconcile sys bank startT endT).discrepantTransactions.count =
      ((stageTwo sys bank startT endT).2.2.trace.filter isDisc).length ∧
    (reconcile sys bank startT endT).discrepantTransactions.totalDiscrepancyValue =
      (((stageTwo sys bank startT endT).2.2.trace.filter isDisc).map
        pairDiff).sum ∧
    (reconcile sys bank startT endT).discrepantTransactions.details =
      some (((stageTwo sys bank startT endT).2.2.trace.filter isDisc).map
        mkDetail) := by
  obtain ⟨hsum, hdisc, hunm⟩ := reconcile_parts sys bank startT endT
  exact ⟨by rw [hsum], by rw [hdisc], by rw [hdisc], by rw [hdisc]⟩

/-- C9: when every filtered system transaction is matched, the report's
system-only list is the nil slice (JSON null), not an empty list — while
the discrepancy-details list and the bank-only-by-source map are always
present as non-null containers; the empty-container guarantee does not
extend to the system-only list. -/
theorem systemOnlyResidue (sys : List SystemTransaction)
    (bank : List BankTransaction) (startT endT : Int)
    (hall : (reconcile sys bank startT
      endT).reconciliationSummary.matchedTransactions =
      (filterSystemTransactionsByDate sys startT endT).length) :
    (reconcile sys bank startT endT).unmatchedTransactions.systemMissingFromBank
      = none ∧
    (reconcile sys bank startT
      endT).discrepantTransactions.details.isSome = true ∧
    (reconcile sys bank startT
      endT).unmatchedTransactions.bankMissingFromSystem.isSome = true := by
  obtain ⟨hsum, hdisc, hunm⟩ := reconcile_parts sys bank startT endT
  obtain ⟨hmS, hmB, hrep, hndS, hndB, hpair⟩ := stageOne_spec sys bank startT endT
  obtain ⟨hp1, hp2, hp3⟩ := stageTwo_spec sys bank startT endT
  refine ⟨?_, by rw [hdisc]; rfl, by rw [hunm]; rfl⟩
  have hmatched : (reconcile sys bank startT
      endT).reconciliationSummary.matchedTransactions =
      (stageOne sys bank startT endT).trace.length +
        (((sysMapStage sys bank startT endT).filter
          (goodEntry (bankMapStage sys bank startT endT))).map
            fun e => e.2.length).sum := by
    rw [hsum]
    simp only []
    rw [stageTwo_trace, List.length_append, pass23Pairs_length]
  have hsplit := sum_map_filter_add (sysMapStage sys bank startT endT)
    (fun e => e.2.length) (goodEntry (bankMapStage sys bank startT endT))
  have hsmsize : mapSize (sysMapStage sys bank startT endT) =
      ((filterSystemTransactionsByDate sys startT endT).filter fun s =>
        !decide (s.trxID ∈ (stageOne sys bank startT
          endT).matchedSystem)).length := by
    rw [mapSize_eq, (sysMap_vals sys bank startT endT).length_eq]
  have hle : (stageOne sys bank startT endT).matchedSystem.length ≤
      ((filterSystemTransactionsByDate sys startT endT).filter
        fun s => decide (s.trxID ∈ (stageOne sys bank startT
          endT).matchedSystem)).length := by
    refine filter_mem_length_le _ _ _ hndS ?_
    intro x hx
    rw [hmS, traceSys] at hx
    obtain ⟨p, hp, rfl⟩ := List.mem_map.mp hx
    exact List.mem_map_of_mem _ (hpair p hp).1
  have hmSlen : (stageOne sys bank startT endT).matchedSystem.length =
      (stageOne sys bank startT endT).trace.length := by
    rw [hmS, traceSys, List.length_map]
  have hfSsplit := length_filter_split
    (filterSystemTransactionsByDate sys startT endT)
    (fun s => decide (s.trxID ∈ (stageOne sys bank startT endT).matchedSystem))
  simp only [mapSize] at hsmsize
  have hbad : (((sysMapStage sys bank startT endT).filter
      fun e => !goodEntry (bankMapStage sys bank startT endT) e).map
        fun e => e.2.length).sum = 0 := by
    rw [hmatched] at hall
    omega
  have hres : (stageTwo sys bank startT endT).1 = [] := by
    refine mapSize_zero _ ?_ ?_
    · rw [hp1]
      exact hbad
    · intro e he
      rw [hp1] at he
      exact sysMap_entry_nonempty sys bank startT endT e
        (List.mem_of_mem_filter he)
  rw [hunm]
  simp only []
  rw [hres]
  rfl

/-- C3: the claim fails on the code. For the one-day window [day 0, day 0],
a system record timestamped 23:30 on the end calendar day is excluded by
the system-side filter (whose upper bound is end + 23h), while a bank
record with the identical timestamp passes the bank-side filter (bound
end + 24h − 1ns): the end day is not included in full on the system side
and the two sides do not share the same semantics. -/
theorem dateFilterBoundary :
    dayOf lateSys.transactionTime = dayOf 0 ∧
    filterSystemTransactionsByDate [lateSys] 0 0 = [] ∧
    lateBank.date = lateSys.transactionTime ∧
    filterBankTransactionsByDate [lateBank] 0 0 = [lateBank] := by
  refine ⟨by decide, by decide, by decide, ?_⟩
  simp [filterBankTransactionsByDate, lateBank, nsPerHour]

/-- C7: a failing ingestion aborts the run with a contextualized error and
no report; when both ingestions succeed the run returns a report without
error, in which the discrepancy-details list and the bank-only-by-source
map are always present (non-null), and on empty filtered inputs all counts
are zero with both containers present and empty. -/
theorem ingestionErrorBoundary (sysRes : Except String (List SystemTransaction))
    (bankRes : Except String (List BankTransaction)) (startT endT : Int) :
    (∀ e, sysRes = .error e →
      reconcileFromIngestion sysRes bankRes startT endT =
        .error ("could not get system transactions: " ++ e)) ∧
    (∀ e sysTxs, sysRes = .ok sysTxs → bankRes = .error e →
      reconcileFromIngestion sysRes bankRes startT endT =
        .error ("could not get bank transactions: " ++ e)) ∧
    (∀ sysTxs bankTxs, sysRes = .ok sysTxs → bankRes = .ok bankTxs →
      reconcileFromIngestion sysRes bankRes startT endT =
        .ok (reconcile sysTxs bankTxs startT endT) ∧
      (reconcile sysTxs bankTxs startT
        endT).discrepantTransactions.details.isSome = true ∧
      (reconcile sysTxs bankTxs startT
        endT).unmatchedTransactions.bankMissingFromSystem.isSome = true ∧
      (filterSystemTransactionsByDate sysTxs startT endT = [] →
       filterBankTransactionsByDate bankTxs startT endT = [] →
        (reconcile sysTxs bankTxs startT
          endT).reconciliationSummary.totalSystemTransactionsProcessed = 0 ∧
        (reconcile sysTxs bankTxs startT
          endT).reconciliationSummary.totalBankTransactionsProcessed = 0 ∧
        (reconcile sysTxs bankTxs startT
          endT).reconciliationSummary.matchedTransactions = 0 ∧
        (reconcile sysTxs bankTxs startT
          endT).discrepantTransactions.count = 0 ∧
        (reconcile sysTxs bankTxs startT
          endT).discrepantTransactions.totalDiscrepancyValue = 0 ∧
        (reconcile sysTxs bankTxs startT
          endT).discrepantTransactions.details = some [] ∧
        (reconcile sysTxs bankTxs startT
          endT).unmatchedTransactions.count = 0 ∧
        (reconcile sysTxs bankTxs startT
          endT).unmatchedTransactions.bankMissingFromSystem = some [])) := by
  refine ⟨?_, ?_, ?_⟩
  · intro e he
    rw [he, reconcileFromIngestion]
  · intro e sysTxs hs hb
    rw [hs, hb, reconcileFromIngestion]
  · intro sysTxs bankTxs hs hb
    obtain ⟨hsum, hdisc, hunm⟩ := reconcile_parts sysTxs bankTxs startT endT
    refine ⟨by rw [hs, hb, reconcileFromIngestion],
      by rw [hdisc]; rfl, by rw [hunm]; rfl, ?_⟩
    intro hfS hfB
    have h1 : stageOne sysTxs bankTxs startT endT =
        initState (initialReport startT endT 0 0) := by
      rw [stageOne, hfS, hfB]
      rfl
    have h2 : stageTwo sysTxs bankTxs startT endT =
        ([], [], initState (initialReport startT endT 0 0)) := by
      rw [stageTwo, sysMapStage, bankMapStage, hfS, hfB, h1]
      rfl
    refine ⟨by rw [hsum]; simp [hfS], by rw [hsum]; simp [hfB],
      by rw [hsum]; simp [h2, initState],
      by rw [hdisc]; simp [h2, initState],
      by rw [hdisc]; simp [h2, initState],
      by rw [hdisc]; simp [h2, initState],
      by rw [hunm]; simp [h2, mapSize],
      by rw [hunm]; simp [h2]; rfl⟩

theorem pass1_append (a b : List BankTransaction)
    (sl : List SystemTransaction) (st : MatchState) :
    pass1 (a ++ b) sl st = pass1 b sl (pass1 a sl st) := by
  induction a generalizing st with
  | nil => rfl
  | cons x a ih =>
    rw [List.cons_append, pass1, pass1, ih]

/-- C5 (amended): Pass 1 iterates bank records outer and system records
inner, each in original order, accepting the first qualifying pair and
immediately claiming both sides (so each record is claimed at most once
and every accepted pair satisfies the description-contains-token test);
provided the filtered system records have pairwise-distinct TrxIDs, the
filtered bank records pairwise-distinct UniqueIdentifiers, and no bank
description references more than one system identifier, a system record
referenced by several bank records pairs exactly with the first such bank
record. All three provisos are forced by the counterexample: a description
referencing two system records lets the first bank record be consumed by
an earlier system record; a duplicate bank UniqueIdentifier is claimed by
the first holder, skipping the second holder though it references first;
a duplicate TrxID is claimed by the first holder, leaving the referenced
second holder unpaired. -/
theorem pass1FirstReference (sys : List SystemTransaction)
    (bank : List BankTransaction) (startT endT : Int)
    (s : SystemTransaction) (b₁ : BankTransaction)
    (B₁ B₂ : List BankTransaction)
    (hS : ((filterSystemTransactionsByDate sys startT endT).map
      SystemTransaction.trxID).Nodup)
    (hB : ((filterBankTransactionsByDate bank startT endT).map
      BankTransaction.uniqueIdentifier).Nodup)
    (hone : ∀ b ∈ filterBankTransactionsByDate bank startT endT,
      ∀ s₁ ∈ filterSystemTransactionsByDate sys startT endT,
      ∀ s₂ ∈ filterSystemTransactionsByDate sys startT endT,
      refersTo b s₁ = true → refersTo b s₂ = true → s₁.trxID = s₂.trxID)
    (hmem : s ∈ filterSystemTransactionsByDate sys startT endT)
    (hfb : filterBankTransactionsByDate bank startT endT = B₁ ++ b₁ :: B₂)
    (href : refersTo b₁ s = true)
    (hfirst : ∀ b ∈ B₁, refersTo b s = false) :
    (s, b₁) ∈ (stageOne sys bank startT endT).trace ∧
    (∀ p ∈ (stageOne sys bank startT endT).trace, p.1 = s → p.2 = b₁) ∧
    (∀ p ∈ (stageOne sys bank startT endT).trace, refersTo p.2 p.1 = true) ∧
    (traceSys (stageOne sys bank startT endT).trace).Nodup ∧
    (traceBank (stageOne sys bank startT endT).trace).Nodup := by
  obtain ⟨hmS, hmB, hrep, hndS, hndB, hpair⟩ := stageOne_spec sys bank startT endT
  have hfS := hS
  have hs1 : stageOne sys bank startT endT =
      pass1 B₂ (filterSystemTransactionsByDate sys startT endT)
        (pass1Inner b₁ (filterSystemTransactionsByDate sys startT endT)
          (pass1 B₁ (filterSystemTransactionsByDate sys startT endT)
            (initState (initialReport startT endT
              (filterSystemTransactionsByDate sys startT endT).length
              (filterBankTransactionsByDate bank startT endT).length)))) := by
    rw [stageOne, hfb, pass1_append, pass1]
  -- state after the banks preceding b₁
  obtain ⟨ts₁, g₁, g₂, g₃, g₄, g₅⟩ := pass1_spec B₁
    (filterSystemTransactionsByDate sys startT endT)
    (initState (initialReport startT endT
      (filterSystemTransactionsByDate sys startT endT).length
      (filterBankTransactionsByDate bank startT endT).length))
  set stA := pass1 B₁ (filterSystemTransactionsByDate sys startT endT)
    (initState (initialReport startT endT
      (filterSystemTransactionsByDate sys startT endT).length
      (filterBankTransactionsByDate bank startT endT).length)) with hstA
  have hb1uid : b₁.uniqueIdentifier ∉ List.map
      BankTransaction.uniqueIdentifier B₁ := by
    rw [hfb] at hB
    simp only [List.map_append, List.map_cons, List.nodup_append,
      List.nodup_cons] at hB
    intro hmemu
    exact hB.2.2 hmemu (List.mem_cons_self _ _)
  have hreceq : ∀ a ∈ filterSystemTransactionsByDate sys startT endT,
      ∀ b ∈ filterSystemTransactionsByDate sys startT endT,
      a.trxID = b.trxID → a = b :=
    fun a ha b hb => List.inj_on_of_nodup_map hS ha hb
  -- s is unclaimed and b₁ unclaimed after processing B₁
  have hsfree : s.trxID ∉ stA.matchedSystem := by
    rw [g₂]
    simp only [initState, List.nil_append, traceSys]
    intro hx
    obtain ⟨p, hp, hpid⟩ := List.mem_map.mp hx
    obtain ⟨hpB, hpS, hpref, _, _⟩ := g₅ p hp
    have heq : p.1 = s := hreceq p.1 hpS s hmem hpid
    rw [heq] at hpref
    exact absurd hpref (by rw [hfirst p.2 hpB]; simp)
  have hbfree : b₁.uniqueIdentifier ∉ stA.matchedBank := by
    rw [g₃]
    simp only [initState, List.nil_append, traceBank]
    intro hx
    obtain ⟨p, hp, hpid⟩ := List.mem_map.mp hx
    obtain ⟨hpB, _, _, _, _⟩ := g₅ p hp
    exact hb1uid (hpid ▸ List.mem_map_of_mem _ hpB)
  -- decompose the system list around s
  obtain ⟨l₁, l₂, hfs⟩ := List.append_of_mem hmem
  have hsnotl₁ : s ∉ l₁ := by
    intro hc
    have hnd := hS
    rw [hfs] at hnd
    simp only [List.map_append, List.map_cons, List.nodup_append,
      List.nodup_cons] at hnd
    exact hnd.2.2 (List.mem_map_of_mem _ hc) (List.mem_cons_self _ _)
  have hb₁mem : b₁ ∈ filterBankTransactionsByDate bank startT endT := by
    rw [hfb]
    exact List.mem_append_right _ (List.mem_cons_self _ _)
  have hskip : ∀ s' ∈ l₁, s'.trxID ∈ stA.matchedSystem ∨
      refersTo b₁ s' = false := by
    intro s' hs'
    refine Or.inr ?_
    cases hrt : refersTo b₁ s' with
    | false => rfl
    | true =>
      exfalso
      have hs'fS : s' ∈ filterSystemTransactionsByDate sys startT endT := by
        rw [hfs]
        exact List.mem_append_left _ hs'
      have hid := hone b₁ hb₁mem s' hs'fS s hmem hrt href
      exact hsnotl₁ ((hreceq s' hs'fS s hmem hid) ▸ hs')
  have hhit : pass1Inner b₁ (filterSystemTransactionsByDate sys startT endT)
      stA = applyMatch stA s b₁ := by
    rw [hfs]
    exact pass1Inner_hits b₁ l₁ s l₂ stA hskip hsfree hbfree href
  rw [hhit] at hs1
  -- the banks after b₁ never rematch s
  obtain ⟨ts₂, k₁, k₂, k₃, k₄, k₅⟩ := pass1_spec B₂
    (filterSystemTransactionsByDate sys startT endT) (applyMatch stA s b₁)
  have htr : (stageOne sys bank startT endT).trace =
      ts₁ ++ [(s, b₁)] ++ ts₂ := by
    rw [hs1, k₁]
    simp only [applyMatch]
    rw [g₁]
    simp [initState]
  refine ⟨?_, ?_, ?_, ?_, ?_⟩
  · rw [htr]
    exact List.mem_append_left _ (List.mem_append_right _ (List.mem_cons_self _ _))
  · intro p hp hps
    rw [htr] at hp
    simp only [List.mem_append, List.mem_singleton] at hp
    rcases hp with (hp | hp) | hp
    · exfalso
      obtain ⟨hpB, hpS, hpref, _, _⟩ := g₅ p hp
      rw [hps] at hpref
      exact absurd hpref (by rw [hfirst p.2 hpB]; simp)
    · rw [hp]
    · exfalso
      obtain ⟨_, _, _, hfresh, _⟩ := k₅ p hp
      refine hfresh ?_
      simp only [applyMatch, List.mem_append, List.mem_singleton]
      right
      rw [hps]
  · intro p hp
    exact (hpair p hp).2.2
  · rw [← hmS]
    exact hndS
  · rw [← hmB]
    exact hndB

theorem mapVals_perm {κ α : Type} {l₁ l₂ : List (κ × List α)}
    (h : l₁.Perm l₂) : (mapVals l₁).Perm (mapVals l₂) := by
  rw [mapVals, mapVals]
  exact (h.map fun e => e.2).flatten

theorem mapSize_perm {κ α : Type} {l₁ l₂ : List (κ × List α)}
    (h : l₁.Perm l₂) : mapSize l₁ = mapSize l₂ := by
  rw [mapSize_eq, mapSize_eq, (mapVals_perm h).length_eq]

theorem orderedPass_report (sys : List SystemTransaction)
    (bank : List BankTransaction) (startT endT : Int)
    (sysOrder : List (GroupKey × List SystemTransaction)) :
    (pass23 sysOrder (bankMapStage sys bank startT endT)
      (stageOne sys bank startT endT)).2.2.report =
    reportAfter (initialReport startT endT
      (filterSystemTransactionsByDate sys startT endT).length
      (filterBankTransactionsByDate bank startT endT).length)
      (pass23 sysOrder (bankMapStage sys bank startT endT)
        (stageOne sys bank startT endT)).2.2.trace := by
  obtain ⟨ts, h₁, h₂, h₃, h₄⟩ := extends_pass23 sysOrder
    (bankMapStage sys bank startT endT) (stageOne sys bank startT endT)
  rw [h₄, (stageOne_spec sys bank startT endT).2.2.1, reportAfter_append, ← h₁]

/-- C8: the partition is independent of Go's randomized map iteration
orders. Re-running the matcher visiting the system grouping map in any
permuted order, and collating the two residues in any permuted orders,
yields the same summary, the same discrepancy count and total, a
permutation of the same matched-pair trace, the same system-only entries
and per-source bank-only bucket contents up to order, and the same
unmatched count. -/
theorem deterministicPartition (sys : List SystemTransaction)
    (bank : List BankTransaction) (startT endT : Int)
    (sysOrder resSysOrder : List (GroupKey × List SystemTransaction))
    (resBankOrder : List (GroupKey × List BankTransaction))
    (h₁ : sysOrder.Perm (sysMapStage sys bank startT endT))
    (h₂ : resSysOrder.Perm (pass23 sysOrder
      (bankMapStage sys bank startT endT) (stageOne sys bank startT endT)).1)
    (h₃ : resBankOrder.Perm (pass23 sysOrder
      (bankMapStage sys bank startT endT)
      (stageOne sys bank startT endT)).2.1) :
    (reconcileOrdered sys bank startT endT sysOrder resSysOrder
      resBankOrder).reconciliationSummary =
      (reconcile sys bank startT endT).reconciliationSummary ∧
    (reconcileOrdered sys bank startT endT sysOrder resSysOrder
      resBankOrder).discrepantTransactions.count =
      (reconcile sys bank startT endT).discrepantTransactions.count ∧
    (reconcileOrdered sys bank startT endT sysOrder resSysOrder
      resBankOrder).discrepantTransactions.totalDiscrepancyValue =
      (reconcile sys bank startT endT).discrepantTransactions.totalDiscrepancyValue ∧
    ((pass23 sysOrder (bankMapStage sys bank startT endT)
      (stageOne sys bank startT endT)).2.2.trace).Perm
      ((stageTwo sys bank startT endT).2.2.trace) ∧
    ((reconcileOrdered sys bank startT endT sysOrder resSysOrder
      resBankOrder).unmatchedTransactions.systemMissingFromBank.getD []).Perm
      ((reconcile sys bank startT
        endT).unmatchedTransactions.systemMissingFromBank.getD []) ∧
    (reconcileOrdered sys bank startT endT sysOrder resSysOrder
      resBankOrder).unmatchedTransactions.count =
      (reconcile sys bank startT endT).unmatchedTransactions.count ∧
    ∀ src, (bucket ((reconcileOrdered sys bank startT endT sysOrder resSysOrder
      resBankOrder).unmatchedTransactions.bankMissingFromSystem.getD []) src).Perm
      (bucket ((reconcile sys bank startT
        endT).unmatchedTransactions.bankMissingFromSystem.getD []) src) := by
  have hro : reconcileOrdered sys bank startT endT sysOrder resSysOrder
      resBankOrder = assemble (pass23 sysOrder
        (bankMapStage sys bank startT endT)
        (stageOne sys bank startT endT)).2.2 resSysOrder resBankOrder := rfl
  obtain ⟨oSum, oDisc, oUnm⟩ := assemble_parts startT endT
    (filterSystemTransactionsByDate sys startT endT).length
    (filterBankTransactionsByDate bank startT endT).length
    (pass23 sysOrder (bankMapStage sys bank startT endT)
      (stageOne sys bank startT endT)).2.2 resSysOrder resBankOrder
    (orderedPass_report sys bank startT endT sysOrder)
  obtain ⟨cSum, cDisc, cUnm⟩ := reconcile_parts sys bank startT endT
  have hnd : (sysOrder.map Prod.fst).Nodup :=
    ((h₁.map Prod.fst).nodup_iff).mpr (sysMap_keys_nodup sys bank startT endT)
  obtain ⟨o1, o2, o3⟩ := pass23_spec sysOrder
    (bankMapStage sys bank startT endT) (stageOne sys bank startT endT)
    hnd (bankMap_keys_nodup sys bank startT endT)
  obtain ⟨c1, c2, c3⟩ := stageTwo_spec sys bank startT endT
  have hfg : (sysOrder.filter (goodEntry (bankMapStage sys bank startT
      endT))).Perm ((sysMapStage sys bank startT endT).filter
        (goodEntry (bankMapStage sys bank startT endT))) :=
    h₁.filter _
  have htrace : ((pass23 sysOrder (bankMapStage sys bank startT endT)
      (stageOne sys bank startT endT)).2.2.trace).Perm
      ((stageTwo sys bank startT endT).2.2.trace) := by
    rw [o3, (matchAll_spec _ _ _).1, stageTwo_trace, pass23Pairs]
    exact (hfg.flatMap_right _).append_left _
  have hres1 : resSysOrder.Perm ((stageTwo sys bank startT endT).1) := by
    refine h₂.trans ?_
    rw [o1, c1]
    exact h₁.filter _
  have hres2eq : (pass23 sysOrder (bankMapStage sys bank startT endT)
      (stageOne sys bank startT endT)).2.1 =
      (stageTwo sys bank startT endT).2.1 := by
    rw [o2, c2]
    refine List.filter_congr fun e he => ?_
    have hiff : e.1 ∈ goodKeys sysOrder (bankMapStage sys bank startT endT) ↔
        e.1 ∈ goodKeys (sysMapStage sys bank startT endT)
          (bankMapStage sys bank startT endT) :=
      (hfg.map Prod.fst).mem_iff
    simp only [decide_eq_decide.mpr hiff]
  have hres2 : resBankOrder.Perm ((stageTwo sys bank startT endT).2.1) :=
    hres2eq ▸ h₃
  refine ⟨?_, ?_, ?_, htrace, ?_, ?_, ?_⟩
  · rw [hro, oSum, cSum, htrace.length_eq]
  · rw [hro, oDisc, cDisc]
    simp only []
    rw [(htrace.filter isDisc).length_eq]
  · rw [hro, oDisc, cDisc]
    simp only []
    rw [((htrace.filter isDisc).map pairDiff).sum_eq]
  · rw [hro, oUnm, cUnm]
    simp only [goLen_eq, collateSystem_getD, Option.getD_none, List.nil_append]
    exact mapVals_perm hres1
  · rw [hro, oUnm, cUnm]
    simp only []
    rw [mapSize_perm hres1, mapSize_perm hres2]
  · intro src
    rw [hro, oUnm, cUnm]
    simp only [Option.getD_some]
    rw [collateBank_bucket, collateBank_bucket]
    exact ((mapVals_perm hres2).filter _).append_left _

/-- C10: claiming is keyed by identifier strings, not record identity. On
this input the two filtered bank records share UniqueIdentifier "X"; the
first is claimed in Pass 1 and the second is thereafter treated as claimed,
so of 2 processed bank records only 1 is matched and none is unmatched —
the duplicate appears in no bucket of the report. -/
theorem duplicateBankIdVanishes :
    dupBankA.uniqueIdentifier = dupBankB.uniqueIdentifier ∧
    (filterBankTransactionsByDate [dupBankA, dupBankB] 0 0).length = 2 ∧
    (reconcile [dupSys] [dupBankA, dupBankB] 0
      0).reconciliationSummary.totalBankTransactionsProcessed = 2 ∧
    (reconcile [dupSys] [dupBankA, dupBankB] 0
      0).reconciliationSummary.matchedTransactions = 1 ∧
    (reconcile [dupSys] [dupBankA, dupBankB] 0
      0).unmatchedTransactions.count = 0 ∧
    (reconcile [dupSys] [dupBankA, dupBankB] 0
      0).unmatchedTransactions.bankMissingFromSystem = some [] ∧
    (reconcile [dupSys] [dupBankA, dupBankB] 0
      0).unmatchedTransactions.systemMissingFromBank = none := by
  norm_num [reconcile, stageTwo, stageOne, sysMapStage, bankMapStage, pass1,
    pass1Inner, applyMatch, processMatch, initState, initialReport,
    filterSystemTransactionsByDate, filterBankTransactionsByDate,
    buildSystemMap, buildBankMap, buildMap, assocPush, pass23, assocLookup,
    assocErase, matchGroup, goodEntry, epsilon, systemKey, bankKey,
    buildGroupKey, dayOf, round2, nsPerHour, nsPerDay, assemble,
    collateSystem, collateBank, collateBankOne, goAppend, goLen, goPush,
    countBankMapItems, mapSize, goContains, listContainsSub, dupSys,
    dupBankA, dupBankB]

/-- Counterexample to C1 as stated: with two filtered bank records sharing
UniqueIdentifier "X", the matched count plus the bank-only total is 1,
while 2 bank records were filtered in — the claimed equality fails. -/
theorem reconcilePartition_cex :
    (reconcile [dupSys] [dupBankA, dupBankB] 0
        0).reconciliationSummary.matchedTransactions +
      countBankMapItems ((reconcile [dupSys] [dupBankA, dupBankB] 0
        0).unmatchedTransactions.bankMissingFromSystem.getD []) ≠
    (filterBankTransactionsByDate [dupBankA, dupBankB] 0 0).length := by
  norm_num [reconcile, stageTwo, stageOne, sysMapStage, bankMapStage, pass1,
    pass1Inner, applyMatch, processMatch, initState, initialReport,
    filterSystemTransactionsByDate, filterBankTransactionsByDate,
    buildSystemMap, buildBankMap, buildMap, assocPush, pass23, assocLookup,
    assocErase, matchGroup, goodEntry, epsilon, systemKey, bankKey,
    buildGroupKey, dayOf, round2, nsPerHour, nsPerDay, assemble,
    collateSystem, collateBank, collateBankOne, goAppend, goLen, goPush,
    countBankMapItems, mapSize, goContains, listContainsSub, dupSys,
    dupBankA, dupBankB]

/-- Witness for the amended C1 on a concrete conflict-free input. -/
theorem reconcilePartition_witness :
    (reconcile [dupSys] [dupBankA] 0
        0).reconciliationSummary.matchedTransactions +
      goLen (reconcile [dupSys] [dupBankA] 0
        0).unmatchedTransactions.systemMissingFromBank =
      (filterSystemTransactionsByDate [dupSys] 0 0).length ∧
    (reconcile [dupSys] [dupBankA] 0
        0).reconciliationSummary.matchedTransactions +
      countBankMapItems ((reconcile [dupSys] [dupBankA] 0
        0).unmatchedTransactions.bankMissingFromSystem.getD []) =
      (filterBankTransactionsByDate [dupBankA] 0 0).length :=
  reconcilePartition [dupSys] [dupBankA] 0 0 (by decide) (by decide)

/-- C2 (amended): the Pass-2/3 trace extension consists exactly of the
grouped pairs, and every grouped pair carries equal group keys — in
particular amounts equal after rounding to 2 decimal places — but its
exact amounts need not be equal, so a pair diverging by more than the
0.001 epsilon can also be produced by grouped matching, not only by
Pass 1. -/
theorem groupedRounding (sys : List SystemTransaction)
    (bank : List BankTransaction) (startT endT : Int) :
    (stageTwo sys bank startT endT).2.2.trace =
      (stageOne sys bank startT endT).trace ++
        pass23Pairs (sysMapStage sys bank startT endT)
          (bankMapStage sys bank startT endT) ∧
    ∀ p ∈ pass23Pairs (sysMapStage sys bank startT endT)
      (bankMapStage sys bank startT endT),
      systemKey p.1 = bankKey p.2 ∧
        round2 p.1.amount = round2 p.2.normalizedAmount :=
  ⟨stageTwo_trace sys bank startT endT,
   groupedPairsSameKey sys bank startT endT⟩

/-- Counterexample to C2 as stated: on this input Pass 1 matches nothing,
yet the run produces one matched pair whose amounts differ by 0.003, more
than the 0.001 epsilon — a divergent-amount pair produced by grouped
matching. -/
theorem groupedRounding_cex :
    (stageOne [divSys] [divBank] 0 0).trace = [] ∧
    (reconcile [divSys] [divBank] 0
      0).reconciliationSummary.matchedTransactions = 1 ∧
    (reconcile [divSys] [divBank] 0 0).discrepantTransactions.count = 1 ∧
    epsilon < |divSys.amount - divBank.normalizedAmount| := by
  have hd : divSys.amount - divBank.normalizedAmount = -(3/1000) := by
    norm_num [divSys, divBank]
  have hq : |divSys.amount - divBank.normalizedAmount| = 3/1000 := by
    rw [hd, abs_neg, abs_of_pos]
    norm_num
  have habs2 : |(100001 : ℚ)/1000 - 100004/1000| = 3/1000 := by
    rw [show (100001 : ℚ)/1000 - 100004/1000 = -(3/1000) by norm_num,
      abs_neg, abs_of_pos]
    norm_num
  have hlt2 : ((1000 : ℚ)⁻¹ < 3/1000) = True := by
    simp only [eq_iff_iff, iff_true]
    norm_num
  have hr : round2 (100001/1000) = 10000 := by norm_num [round2]
  have hr2 : round2 (100004/1000) = 10000 := by norm_num [round2]
  refine ⟨?_, ?_, ?_, by rw [hq, epsilon]; norm_num⟩ <;>
  simp +decide [reconcile, stageTwo, stageOne, sysMapStage, bankMapStage,
    pass1, pass1Inner, applyMatch, processMatch, initState, initialReport,
    filterSystemTransactionsByDate, filterBankTransactionsByDate,
    buildSystemMap, buildBankMap, buildMap, assocPush, pass23, assocLookup,
    assocErase, matchGroup, goodEntry, epsilon, systemKey, bankKey,
    buildGroupKey, dayOf, nsPerHour, nsPerDay, assemble,
    collateSystem, collateBank, collateBankOne, goAppend, goLen, goPush,
    countBankMapItems, mapSize, goContains, listContainsSub, divSys, divBank,
    hr, hr2, habs2, hlt2]

/-- Witness for the amended C2: the divergent grouped pair of the
counterexample input indeed carries equal group keys. -/
theorem groupedRounding_witness :
    systemKey divSys = bankKey divBank ∧
      round2 divSys.amount = round2 divBank.normalizedAmount := by
  have hr : round2 (100001/1000) = 10000 := by norm_num [round2]
  have hr2 : round2 (100004/1000) = 10000 := by norm_num [round2]
  have hr3 : round2 (25001/250) = 10000 := by norm_num [round2]
  have hpp : pass23Pairs (sysMapStage [divSys] [divBank] 0 0)
      (bankMapStage [divSys] [divBank] 0 0) = [(divSys, divBank)] := by
    simp +decide [pass23Pairs, stageOne, sysMapStage, bankMapStage, pass1,
      pass1Inner, applyMatch, processMatch, initState, initialReport,
      filterSystemTransactionsByDate, filterBankTransactionsByDate,
      buildSystemMap, buildBankMap, buildMap, assocPush, assocLookup,
      goodEntry, bankGroup, epsilon, systemKey, bankKey, buildGroupKey,
      dayOf, nsPerHour, nsPerDay, goContains, listContainsSub,
      divSys, divBank, hr, hr2, hr3]
  exact (groupedRounding [divSys] [divBank] 0 0).2 (divSys, divBank)
    (by rw [hpp]; exact List.mem_singleton.mpr rfl)

/-- Counterexample to C5's final clause, forcing all three provisos of the
amended claim. Part 1: refB1 is the first bank record whose description
mentions S2 (it references both S1 and S2), yet S2 pairs with refB2 —
refB1 is consumed by the earlier system record S1. Part 2: with every
description referencing exactly one identifier, dB2 is the first record
referencing S2, but it shares UniqueIdentifier X with dB1 (claimed first),
so S2 pairs with the later dB3. Part 3: two distinct system records share
TrxID S; the first is claimed by the lone referencing bank record and the
second pairs with nothing, so the referenced record tS2 never pairs with
the first (or any) bank record mentioning it. -/
theorem pass1FirstReference_cex :
    (refersTo refB1 refS2 = true ∧
      refersTo refB2 refS2 = true ∧
      (stageOne [refS1, refS2] [refB1, refB2] 0 0).trace =
        [(refS1, refB1), (refS2, refB2)]) ∧
    (refersTo dB2 refS2 = true ∧
      refersTo dB3 refS2 = true ∧
      dB1.uniqueIdentifier = dB2.uniqueIdentifier ∧
      (stageOne [refS1, refS2] [dB1, dB2, dB3] 0 0).trace =
        [(refS1, dB1), (refS2, dB3)]) ∧
    (tS1.trxID = tS2.trxID ∧
      tS1 ≠ tS2 ∧
      refersTo tB tS2 = true ∧
      (stageOne [tS1, tS2] [tB] 0 0).trace = [(tS1, tB)]) := by
  refine ⟨⟨by decide, by decide, ?_⟩, ⟨by decide, by decide, rfl, ?_⟩,
    ⟨rfl, ?_, by decide, ?_⟩⟩
  · simp +decide [stageOne, pass1, pass1Inner, applyMatch, processMatch,
      initState, initialReport, filterSystemTransactionsByDate,
      filterBankTransactionsByDate, epsilon, dayOf, nsPerHour, nsPerDay,
      goContains, listContainsSub, refS1, refS2, refB1, refB2, refersTo]
  · simp +decide [stageOne, pass1, pass1Inner, applyMatch, processMatch,
      initState, initialReport, filterSystemTransactionsByDate,
      filterBankTransactionsByDate, epsilon, dayOf, nsPerHour, nsPerDay,
      goContains, listContainsSub, refS1, refS2, dB1, dB2, dB3, refersTo]
  · intro hc
    have : (1 : ℚ) = 2 := congrArg SystemTransaction.amount hc
    norm_num at this
  · simp +decide [stageOne, pass1, pass1Inner, applyMatch, processMatch,
      initState, initialReport, filterSystemTransactionsByDate,
      filterBankTransactionsByDate, epsilon, dayOf, nsPerHour, nsPerDay,
      goContains, listContainsSub, tS1, tS2, tB, refersTo]

/-- Witness for the amended C5: with single references, W1 pairs with the
first bank record WB1 that mentions it, and with no other. -/
theorem pass1FirstReference_witness :
    (wS, wB1) ∈ (stageOne [wS] [wB1, wB2] 0 0).trace ∧
    ∀ p ∈ (stageOne [wS] [wB1, wB2] 0 0).trace, p.1 = wS → p.2 = wB1 := by
  have hfS : filterSystemTransactionsByDate [wS] 0 0 = [wS] := by
    simp +decide [filterSystemTransactionsByDate, wS, nsPerHour]
  have hfB : filterBankTransactionsByDate [wB1, wB2] 0 0 = [wB1, wB2] := by
    simp +decide [filterBankTransactionsByDate, wB1, wB2, nsPerHour]
  have h := pass1FirstReference [wS] [wB1, wB2] 0 0 wS wB1 [] [wB2]
    (by rw [hfS]; decide)
    (by rw [hfB]; decide)
    (by
      rw [hfS, hfB]
      intro b hb s₁ hs₁ s₂ hs₂ h₁ h₂
      simp only [List.mem_singleton] at hs₁ hs₂
      rw [hs₁, hs₂])
    (by rw [hfS]; exact List.mem_singleton.mpr rfl)
    (by rw [hfB]; simp)
    (by decide)
    (by intro b hb; simp at hb)
  exact ⟨h.1, h.2.1⟩

/-- Witness for C7: a failing system ingestion aborts with context; two
successful empty ingestions yield a well-formed all-zero report with
non-null empty containers. -/
theorem ingestionErrorBoundary_witness :
    reconcileFromIngestion (Except.error "no such file") (Except.ok []) 0 0 =
      Except.error ("could not get system transactions: " ++ "no such file") ∧
    reconcileFromIngestion (Except.ok ([] : List SystemTransaction))
      (Except.error "bad row") 0 0 =
      Except.error ("could not get bank transactions: " ++ "bad row") ∧
    reconcileFromIngestion (Except.ok ([] : List SystemTransaction))
      (Except.ok ([] : List BankTransaction)) 0 0 =
      Except.ok (reconcile [] [] 0 0) ∧
    (reconcile ([] : List SystemTransaction) ([] : List BankTransaction) 0
      0).reconciliationSummary.matchedTransactions = 0 ∧
    (reconcile ([] : List SystemTransaction) ([] : List BankTransaction) 0
      0).discrepantTransactions.details = some [] ∧
    (reconcile ([] : List SystemTransaction) ([] : List BankTransaction) 0
      0).unmatchedTransactions.count = 0 ∧
    (reconcile ([] : List SystemTransaction) ([] : List BankTransaction) 0
      0).unmatchedTransactions.bankMissingFromSystem = some [] := by
  have h1 := (ingestionErrorBoundary (Except.error "no such file")
    (Except.ok []) 0 0).1 "no such file" rfl
  have h2 := (ingestionErrorBoundary (Except.ok ([] : List SystemTransaction))
    (Except.error "bad row") 0 0).2.1 "bad row" [] rfl rfl
  obtain ⟨h3, h4, h5, h6⟩ := (ingestionErrorBoundary
    (Except.ok ([] : List SystemTransaction))
    (Except.ok ([] : List BankTransaction)) 0 0).2.2 [] [] rfl rfl
  obtain ⟨z1, z2, z3, z4, z5, z6, z7, z8⟩ := h6 rfl rfl
  exact ⟨h1, h2, h3, z3, z6, z7, z8⟩

/-- Witness for C9: on an input where the only filtered system transaction
is matched, the system-only list is the nil slice while the other two
containers are present. -/
theorem systemOnlyResidue_witness :
    (reconcile [dupSys] [dupBankA] 0
      0).unmatchedTransactions.systemMissingFromBank = none ∧
    (reconcile [dupSys] [dupBankA] 0
      0).discrepantTransactions.details.isSome = true ∧
    (reconcile [dupSys] [dupBankA] 0
      0).unmatchedTransactions.bankMissingFromSystem.isSome = true :=
  systemOnlyResidue [dupSys] [dupBankA] 0 0 (by
    norm_num [reconcile, stageTwo, stageOne, sysMapStage, bankMapStage,
      pass1, pass1Inner, applyMatch, processMatch, initState, initialReport,
      filterSystemTransactionsByDate, filterBankTransactionsByDate,
      buildSystemMap, buildBankMap, buildMap, assocPush, pass23, assocLookup,
      assocErase, matchGroup, goodEntry, epsilon, systemKey, bankKey,
      buildGroupKey, dayOf, round2, nsPerHour, nsPerDay, assemble,
      collateSystem, collateBank, collateBankOne, goAppend, goLen, goPush,
      countBankMapItems, mapSize, goContains, listContainsSub, dupSys,
      dupBankA])

/-- Witness for C8: visiting the two-key system grouping map in the
reversed order yields the same summary and the same unmatched count. -/
theorem deterministicPartition_witness :
    (reconcileOrdered [pS1, pS2] [] 0 0
        [((0, DEBIT, 2000), [pS2]), ((0, DEBIT, 1000), [pS1])]
        (pass23 [((0, DEBIT, 2000), [pS2]), ((0, DEBIT, 1000), [pS1])]
          (bankMapStage [pS1, pS2] [] 0 0) (stageOne [pS1, pS2] [] 0 0)).1
        (pass23 [((0, DEBIT, 2000), [pS2]), ((0, DEBIT, 1000), [pS1])]
          (bankMapStage [pS1, pS2] [] 0 0)
          (stageOne [pS1, pS2] [] 0 0)).2.1).reconciliationSummary =
      (reconcile [pS1, pS2] [] 0 0).reconciliationSummary ∧
    (reconcileOrdered [pS1, pS2] [] 0 0
        [((0, DEBIT, 2000), [pS2]), ((0, DEBIT, 1000), [pS1])]
        (pass23 [((0, DEBIT, 2000), [pS2]), ((0, DEBIT, 1000), [pS1])]
          (bankMapStage [pS1, pS2] [] 0 0) (stageOne [pS1, pS2] [] 0 0)).1
        (pass23 [((0, DEBIT, 2000), [pS2]), ((0, DEBIT, 1000), [pS1])]
          (bankMapStage [pS1, pS2] [] 0 0)
          (stageOne [pS1, pS2] [] 0 0)).2.1).unmatchedTransactions.count =
      (reconcile [pS1, pS2] [] 0 0).unmatchedTransactions.count := by
  have hr : round2 10 = 1000 := by norm_num [round2]
  have hr2 : round2 20 = 2000 := by norm_num [round2]
  have hsm : sysMapStage [pS1, pS2] [] 0 0 =
      [((0, DEBIT, 1000), [pS1]), ((0, DEBIT, 2000), [pS2])] := by
    simp +decide [sysMapStage, stageOne, pass1, initState, initialReport,
      filterSystemTransactionsByDate, filterBankTransactionsByDate,
      buildSystemMap, buildMap, assocPush, systemKey, buildGroupKey, dayOf,
      nsPerHour, nsPerDay, pS1, pS2, hr, hr2, DEBIT]
  have hperm : ([((0, DEBIT, 2000), [pS2]), ((0, DEBIT, 1000), [pS1])] :
      List (GroupKey × List SystemTransaction)).Perm
      (sysMapStage [pS1, pS2] [] 0 0) := by
    rw [hsm]
    exact List.Perm.swap _ _ _
  have h := deterministicPartition [pS1, pS2] [] 0 0
    [((0, DEBIT, 2000), [pS2]), ((0, DEBIT, 1000), [pS1])]
    (pass23 [((0, DEBIT, 2000), [pS2]), ((0, DEBIT, 1000), [pS1])]
      (bankMapStage [pS1, pS2] [] 0 0) (stageOne [pS1, pS2] [] 0 0)).1
    (pass23 [((0, DEBIT, 2000), [pS2]), ((0, DEBIT, 1000), [pS1])]
      (bankMapStage [pS1, pS2] [] 0 0) (stageOne [pS1, pS2] [] 0 0)).2.1
    hperm (List.Perm.refl _) (List.Perm.refl _)
  exact ⟨h.1, h.2.2.2.2.2.1⟩

/-- Witness for C4: on a one-record input the grouped record carries its
group key, and the whole group survives into the residue since the bank
side is empty. -/
theorem groupedMatching_witness :
    systemKey pS1 = (0, DEBIT, 1000) ∧
    (stageTwo [pS1] [] 0 0).1 = (sysMapStage [pS1] [] 0 0).filter
      (fun e => !goodEntry (bankMapStage [pS1] [] 0 0) e) := by
  have hr : round2 10 = 1000 := by norm_num [round2]
  have hsm : sysMapStage [pS1] [] 0 0 = [((0, DEBIT, 1000), [pS1])] := by
    simp +decide [sysMapStage, stageOne, pass1, initState, initialReport,
      filterSystemTransactionsByDate, filterBankTransactionsByDate,
      buildSystemMap, buildMap, assocPush, systemKey, buildGroupKey, dayOf,
      nsPerHour, nsPerDay, pS1, hr, DEBIT]
  refine ⟨?_, (groupedMatching [pS1] [] 0 0).2.2.2.2.2.1⟩
  refine (groupedMatching [pS1] [] 0 0).1 ((0, DEBIT, 1000), [pS1]) ?_ pS1 ?_
  · rw [hsm]
    exact List.mem_singleton.mpr rfl
  · exact List.mem_singleton.mpr rfl

end MiniRecon
